import Mathlib

/-!
The appliance client of rubrik-exporter (`rubrik/rubrik_api.go`, `rubrik/stat.go`).

A shallow embedding of the request helper `makeRequest` and of the eight
statistics accessors, together with the parts of the Go standard library they
call (`net/url` query encoding, `net/http` request construction,
`encoding/json` scanning and unmarshalling).

Conventions of the embedding:

* Go strings are modelled by `String`; where Go works on the bytes of a string
  (query escaping, key sorting) the UTF-8 bytes are computed explicitly.
* Go `int` is the 64-bit signed integer of the usual targets; values are `Int`
  together with an explicit range check where the code can overflow.
* `log.Printf` only writes to the log and is not modelled; `log.Fatal` ends
  the process and is modelled by `Outcome.fatal`.
* The network is a parameter (`Transport`): what `http.NewRequest` rejects and
  what `http.Client.Do` answers.
* A response body is the complete text the appliance sent.
-/

namespace rubrik

/-! ## Go strings as bytes -/

/-- UTF-8 encoding of one code point, as the list of its bytes. -/
def utf8EncodeChar (c : Char) : List Nat :=
  let n := c.toNat
  if n < 0x80 then [n]
  else if n < 0x800 then [0xC0 + n / 0x40, 0x80 + n % 0x40]
  else if n < 0x10000 then [0xE0 + n / 0x1000, 0x80 + (n / 0x40) % 0x40, 0x80 + n % 0x40]
  else [0xF0 + n / 0x40000, 0x80 + (n / 0x1000) % 0x40, 0x80 + (n / 0x40) % 0x40, 0x80 + n % 0x40]

/-- The bytes of a Go string. -/
def utf8Bytes (s : String) : List Nat :=
  s.data.flatMap utf8EncodeChar

/-- Byte-wise lexicographic order, the order of Go's `<` on strings. -/
def bytesLess : List Nat → List Nat → Bool
  | [], [] => false
  | [], _ :: _ => true
  | _ :: _, [] => false
  | a :: as, b :: bs => if a < b then true else if b < a then false else bytesLess as bs

/-! ## net/url: `Values.Encode` -/

/-- Go's `url.Values`, a `map[string][]string`: the entries of the map, one
per key. The nil map is the empty list. -/
abbrev Values := List (String × List String)

/-- Go's `shouldEscape(c, encodeQueryComponent)`: only ASCII letters, digits
and `- _ . ~` stay as they are. -/
def shouldEscape (b : Nat) : Bool :=
  if (97 ≤ b && b ≤ 122) || (65 ≤ b && b ≤ 90) || (48 ≤ b && b ≤ 57) then false
  else if b = 45 || b = 95 || b = 46 || b = 126 then false
  else true

/-- One digit of Go's `upperhex` table `"0123456789ABCDEF"`. -/
def upperhex (d : Nat) : Char :=
  if d < 10 then Char.ofNat (48 + d) else Char.ofNat (55 + d)

/-- Escaping of one byte in `escape(s, encodeQueryComponent)`: a space becomes
`+`, a byte that must be escaped becomes `%XX`. -/
def escapeByte (b : Nat) : List Char :=
  if b = 32 then ['+']
  else if shouldEscape b then ['%', upperhex (b / 16), upperhex (b % 16)]
  else [Char.ofNat b]

/-- Go's `url.QueryEscape`. -/
def QueryEscape (s : String) : String :=
  ⟨(utf8Bytes s).flatMap escapeByte⟩

/-- Insertion of a key into a list of keys sorted by `bytesLess`. -/
def insertKey (k : String) : List String → List String
  | [] => [k]
  | x :: xs => if bytesLess (utf8Bytes x) (utf8Bytes k) then x :: insertKey k xs else k :: x :: xs

/-- Go's `slices.Sort(keys)` on strings. -/
def sortKeys : List String → List String
  | [] => []
  | k :: ks => insertKey k (sortKeys ks)

/-- Go's map lookup `v[k]` on a `url.Values` (nil when the key is absent). -/
def Values.get (v : Values) (k : String) : List String :=
  match v.find? (fun e => e.1 = k) with
  | some e => e.2
  | none => []

/-- The inner loop of `Values.Encode` over the values of one key: each value
is written as `key=value`, with `&` in front when the buffer is not empty. -/
def encodeKey (keyEscaped : String) : List String → String → String
  | [], buf => buf
  | v :: vs, buf =>
    let buf := if buf.length > 0 then buf ++ "&" else buf
    encodeKey keyEscaped vs (buf ++ keyEscaped ++ "=" ++ QueryEscape v)

/-- The outer loop of `Values.Encode` over the sorted keys. -/
def encodeKeys (v : Values) : List String → String → String
  | [], buf => buf
  | k :: ks, buf => encodeKeys v ks (encodeKey (QueryEscape k) (v.get k) buf)

/-- Go's `url.Values.Encode`: the entries in `key=value` form, sorted by key. -/
def Values.Encode (v : Values) : String :=
  if v.length = 0 then ""
  else encodeKeys v (sortKeys (v.map (fun e => e.1))) ""

/-! ## The session and the request helper (`rubrik_api.go`) -/

/-- The struct `RequestParams`. -/
structure RequestParams where
  body : String := ""
  header : String := ""
  params : Values := []
deriving DecidableEq, Repr

/-- The struct `Rubrik`. -/
structure Rubrik where
  url : String
  username : String
  password : String
  sessionToken : String
  isLoggedIn : Bool
deriving DecidableEq, Repr

/-- Go's `http.Header`, a `map[string][]string` with canonical keys. -/
abbrev Header := List (String × List String)

/-- Go's `Header.Set` for a key that is already in canonical form: the key's
values are replaced by the single value. -/
def Header.Set (h : Header) (key value : String) : Header :=
  h.filter (fun e => e.1 ≠ key) ++ [(key, [value])]

/-- Go's `Header.Get`: the first value of the key, `""` when absent. -/
def Header.Get (h : Header) (key : String) : String :=
  match h.find? (fun e => e.1 = key) with
  | some e => e.2.headD ""
  | none => ""

/-- The `*http.Request` that `http.NewRequest` returns, as far as the client
sets it: method, the URL string it was given, headers and body. -/
structure Request where
  Method : String
  URL : String
  Header : Header
  Body : String
deriving DecidableEq, Repr

/-- The `*http.Response`, as far as the client reads it. -/
structure Response where
  StatusCode : Int
  Body : String
deriving DecidableEq, Repr

/-- The world outside the process: which `(method, url)` pairs
`http.NewRequest` rejects with an error, and what `netClient.Do` answers
(`none` when it returns an error). -/
structure Transport where
  newRequestErr : String → String → Bool
  Do : Request → Option Response

/-- How a call ends: the process is ended by `log.Fatal`, or the function
returns. -/
inductive Outcome (α : Type) where
  | fatal
  | returned (a : α)
deriving DecidableEq, Repr

/-- One call of `makeRequest`: its arguments. -/
structure MakeRequestCall where
  reqType : String
  action : String
  p : RequestParams
deriving DecidableEq, Repr

/-- The observable run of a function: the calls of `makeRequest` it made, the
requests handed to `netClient.Do`, and how it ended. -/
structure Exec (α : Type) where
  calls : List MakeRequestCall
  requests : List Request
  outcome : Outcome α

/-- The request `makeRequest` builds (lines 40 to 57), when `http.NewRequest`
accepts it. -/
def buildRequest (r : Rubrik) (reqType action : String) (p : RequestParams) : Request :=
  let _url := r.url ++ action
  let body := p.body
  let _url := _url ++ ("?" ++ p.params.Encode)
  let req : Request := { Method := reqType, URL := _url, Header := [], Body := body }
  let req := { req with Header := req.Header.Set "Content-Type" "text/JSON" }
  { req with Header := req.Header.Set "Authorization" ("Bearer " ++ r.sessionToken) }

/-- The method `Rubrik.makeRequest`. The pair returned is `(resp, err)`. An
error of `http.NewRequest` (line 53) or of `netClient.Do` (line 60) ends the
process; a status outside 200..299 returns no response and an error. -/
def makeRequest (env : Transport) (r : Rubrik) (reqType action : String) (p : RequestParams) :
    Exec (Option Response × Option String) :=
  let call : MakeRequestCall := ⟨reqType, action, p⟩
  let _url := r.url ++ action ++ ("?" ++ p.params.Encode)
  if env.newRequestErr reqType _url then
    { calls := [call], requests := [], outcome := .fatal }
  else
    let req := buildRequest r reqType action p
    match env.Do req with
    | none => { calls := [call], requests := [req], outcome := .fatal }
    | some resp =>
      if resp.StatusCode < 200 || resp.StatusCode >= 300 then
        { calls := [call], requests := [req],
          outcome := .returned (none, some ("HTTP " ++ toString resp.StatusCode ++ ": " ++ action)) }
      else
        { calls := [call], requests := [req], outcome := .returned (some resp, none) }

/-! ## encoding/json: the scanner

`json.Decoder.Decode` first reads one complete value from the stream
(`readValue`), `json.Unmarshal` first checks that the whole input is one value
(`checkValid`); both run the same scanner, and only then is the value
unmarshalled. The scanner is modelled as a function from the text to the
scanned value, the unmarshalling as a function on that value. -/

/-- A scanned JSON value. A number keeps its literal, an object keeps its
members in the order of the text, duplicates included. -/
inductive JValue where
  | null
  | bool (b : Bool)
  | number (lit : List Char)
  | string (s : String)
  | array (elems : List JValue)
  | object (members : List (String × JValue))
deriving Repr

/-- Go's `isSpace`. -/
def isSpace (c : Char) : Bool :=
  c = ' ' || c = '\t' || c = '\r' || c = '\n'

/-- Skips the white space in front of the next token. -/
def skipSpace : List Char → List Char
  | [] => []
  | c :: cs => if isSpace c then skipSpace cs else c :: cs

/-- A decimal digit. -/
def isDigit (c : Char) : Bool :=
  48 ≤ c.toNat && c.toNat ≤ 57

/-- A hexadecimal digit, as the scanner's `\u` states accept it. -/
def isHex (c : Char) : Bool :=
  isDigit c || (97 ≤ c.toNat && c.toNat ≤ 102) || (65 ≤ c.toNat && c.toNat ≤ 70)

/-- The value of a hexadecimal digit. -/
def hexVal (c : Char) : Nat :=
  if isDigit c then c.toNat - 48
  else if 97 ≤ c.toNat then c.toNat - 87
  else c.toNat - 55

/-- One unit of a string literal: a character (written plainly or by a
one-letter escape) or a `\uXXXX` escape with its 16-bit value. -/
inductive StrUnit where
  | lit (c : Char)
  | u (code : Nat)
deriving DecidableEq, Repr

/-- The character a one-letter escape stands for (`stateInStringEsc`, and the
table in `unquoteBytes`). -/
def simpleEscape (c : Char) : Option Char :=
  if c = '"' then some '"'
  else if c = '\\' then some '\\'
  else if c = '/' then some '/'
  else if c = 'b' then some (Char.ofNat 8)
  else if c = 'f' then some (Char.ofNat 12)
  else if c = 'n' then some '\n'
  else if c = 'r' then some '\r'
  else if c = 't' then some '\t'
  else none

/-- Adds a unit in front of the units of a scanned string. -/
def consUnit (x : StrUnit) : Option (List StrUnit × List Char) → Option (List StrUnit × List Char)
  | none => none
  | some (xs, rest) => some (x :: xs, rest)

/-- The scanner inside a string literal, from the character after the opening
quote to the closing quote (`stateInString`, `stateInStringEsc`,
`stateInStringEscU` and its successors): the units of the literal and the text
after the closing quote. A control character, an unknown escape or the end of
the text is an error. -/
def scanString : List Char → Option (List StrUnit × List Char)
  | [] => none
  | c :: rest =>
    if c = '"' then some ([], rest)
    else if c = '\\' then
      match rest with
      | [] => none
      | e :: rest2 =>
        if e = 'u' then
          match rest2 with
          | h1 :: h2 :: h3 :: h4 :: rest3 =>
            if isHex h1 && isHex h2 && isHex h3 && isHex h4 then
              consUnit (.u (hexVal h1 * 4096 + hexVal h2 * 256 + hexVal h3 * 16 + hexVal h4))
                (scanString rest3)
            else none
          | _ => none
        else
          match simpleEscape e with
          | some ch => consUnit (.lit ch) (scanString rest2)
          | none => none
    else if c.toNat < 0x20 then none
    else consUnit (.lit c) (scanString rest)

/-- Go's `unquote` on the units of a scanned literal: a `\u` escape outside
the surrogate range is its code point, a high surrogate followed by a low one
is the pair's code point, any other surrogate is U+FFFD. -/
def unquoteUnits : List StrUnit → List Char
  | [] => []
  | .lit c :: rest => c :: unquoteUnits rest
  | .u hi :: .u lo :: rest =>
    if 0xD800 ≤ hi && hi < 0xE000 then
      if hi < 0xDC00 && 0xDC00 ≤ lo && lo < 0xE000 then
        Char.ofNat ((hi - 0xD800) * 0x400 + (lo - 0xDC00) + 0x10000) :: unquoteUnits rest
      else Char.ofNat 0xFFFD :: unquoteUnits (.u lo :: rest)
    else Char.ofNat hi :: unquoteUnits (.u lo :: rest)
  | .u hi :: rest =>
    if 0xD800 ≤ hi && hi < 0xE000 then Char.ofNat 0xFFFD :: unquoteUnits rest
    else Char.ofNat hi :: unquoteUnits rest

/-- The integer part of a number (`state0`, `state1`): a single `0`, or a
digit from 1 to 9 followed by digits. -/
def scanIntPart : List Char → Option (List Char × List Char)
  | [] => none
  | c :: rest =>
    if c = '0' then some (['0'], rest)
    else if isDigit c then some (c :: (rest.span isDigit).1, (rest.span isDigit).2)
    else none

/-- The optional fraction (`stateDot`, `stateDot0`): a `.` must be followed
by at least one digit. -/
def scanFrac : List Char → Option (List Char × List Char)
  | [] => some ([], [])
  | c :: rest =>
    if c = '.' then
      if (rest.span isDigit).1 = [] then none
      else some (c :: (rest.span isDigit).1, (rest.span isDigit).2)
    else some ([], c :: rest)

/-- The digits of an exponent (`stateE0`): at least one. -/
def scanExpDigits (pre : List Char) (cs : List Char) : Option (List Char × List Char) :=
  if (cs.span isDigit).1 = [] then none
  else some (pre ++ (cs.span isDigit).1, (cs.span isDigit).2)

/-- The optional exponent (`stateE`, `stateESign`, `stateE0`): `e` or `E`, an
optional sign, and at least one digit. -/
def scanExp : List Char → Option (List Char × List Char)
  | [] => some ([], [])
  | c :: rest =>
    if c = 'e' || c = 'E' then
      match rest with
      | [] => none
      | s :: rest2 =>
        if s = '+' || s = '-' then scanExpDigits [c, s] rest2
        else scanExpDigits [c] (s :: rest2)
    else some ([], c :: rest)

/-- The scanner on a number, from its first character (`stateNeg` onwards):
the literal and the text after it. -/
def scanNumber (cs : List Char) : Option (List Char × List Char) :=
  let sign : List Char := match cs with
    | c :: _ => if c = '-' then ['-'] else []
    | [] => []
  match scanIntPart (cs.drop sign.length) with
  | none => none
  | some (i, r1) =>
    match scanFrac r1 with
    | none => none
    | some (f, r2) =>
      match scanExp r2 with
      | none => none
      | some (e, r3) => some (sign ++ i ++ f ++ e, r3)

/-- The scanner on one of the words `true`, `false`, `null`: the text after
the word when the text starts with it. -/
def scanWord (word : List Char) (cs : List Char) : Option (List Char) :=
  if word.isPrefixOf cs then some (cs.drop word.length) else none

/-- Go's `maxNestingDepth`. -/
def maxNestingDepth : Nat := 10000

mutual
/-- The scanner on one value that starts at the head of the text (white space
already skipped), below `depth` open arrays and objects: the value and the
text after it. The first argument bounds the number of nested calls. -/
def scanValue : Nat → Nat → List Char → Option (JValue × List Char)
  | 0, _, _ => none
  | fuel + 1, depth, cs =>
    match cs with
    | [] => none
    | c :: rest =>
      if c = '{' then
        if depth + 1 > maxNestingDepth then none
        else
          match skipSpace rest with
          | [] => none
          | c2 :: rest2 =>
            if c2 = '}' then some (.object [], rest2)
            else
              match scanMembers fuel (depth + 1) (c2 :: rest2) with
              | none => none
              | some (ms, r) => some (.object ms, r)
      else if c = '[' then
        if depth + 1 > maxNestingDepth then none
        else
          match skipSpace rest with
          | [] => none
          | c2 :: rest2 =>
            if c2 = ']' then some (.array [], rest2)
            else
              match scanElements fuel (depth + 1) (c2 :: rest2) with
              | none => none
              | some (es, r) => some (.array es, r)
      else if c = '"' then
        match scanString rest with
        | none => none
        | some (us, r) => some (.string ⟨unquoteUnits us⟩, r)
      else if c = '-' || isDigit c then
        match scanNumber (c :: rest) with
        | none => none
        | some (lit, r) => some (.number lit, r)
      else if c = 't' then
        match scanWord ['t', 'r', 'u', 'e'] (c :: rest) with
        | none => none
        | some r => some (.bool true, r)
      else if c = 'f' then
        match scanWord ['f', 'a', 'l', 's', 'e'] (c :: rest) with
        | none => none
        | some r => some (.bool false, r)
      else if c = 'n' then
        match scanWord ['n', 'u', 'l', 'l'] (c :: rest) with
        | none => none
        | some r => some (.null, r)
      else none
/-- The scanner on the members of an object, from the opening quote of a key
to the closing brace: `"key" : value`, then `,` and the next member, or `}`. -/
def scanMembers : Nat → Nat → List Char → Option (List (String × JValue) × List Char)
  | 0, _, _ => none
  | fuel + 1, depth, cs =>
    match cs with
    | [] => none
    | q :: rest =>
      if q = '"' then
        match scanString rest with
        | none => none
        | some (us, r1) =>
          match skipSpace r1 with
          | [] => none
          | colon :: r2 =>
            if colon = ':' then
              match scanValue fuel depth (skipSpace r2) with
              | none => none
              | some (v, r3) =>
                match skipSpace r3 with
                | [] => none
                | sep :: r4 =>
                  if sep = ',' then
                    match scanMembers fuel depth (skipSpace r4) with
                    | none => none
                    | some (ms, r) => some ((⟨unquoteUnits us⟩, v) :: ms, r)
                  else if sep = '}' then some ([(⟨unquoteUnits us⟩, v)], r4)
                  else none
            else none
      else none
/-- The scanner on the elements of an array, from the first character of an
element to the closing bracket: a value, then `,` and the next element, or
`]`. -/
def scanElements : Nat → Nat → List Char → Option (List JValue × List Char)
  | 0, _, _ => none
  | fuel + 1, depth, cs =>
    match scanValue fuel depth cs with
    | none => none
    | some (v, r1) =>
      match skipSpace r1 with
      | [] => none
      | sep :: r2 =>
        if sep = ',' then
          match scanElements fuel depth (skipSpace r2) with
          | none => none
          | some (es, r) => some (v :: es, r)
        else if sep = ']' then some ([v], r2)
        else none
end

/-- The decoder's `readValue` on a fresh stream holding `body`: the first
value of the stream and the text after it, `none` when the scanner reports an
error or the stream ends before the value is complete. What follows the value
is not looked at. -/
def readValue (body : List Char) : Option (JValue × List Char) :=
  scanValue (body.length + 1) 0 (skipSpace body)

/-- Go's `checkValid` (and `json.Valid`): the whole text is one value, with
white space around it at most. -/
def checkValid (data : List Char) : Option JValue :=
  match readValue data with
  | none => none
  | some (v, rest) => if skipSpace rest = [] then some v else none

/-! ## encoding/json: unmarshalling -/

/-- The error a decode step returns: the scanner's (`SyntaxError`, `io.EOF`,
`io.ErrUnexpectedEOF`, raised before anything is stored), or the first
`UnmarshalTypeError` saved while storing. -/
inductive DecodeError where
  | scan
  | unmarshalType
deriving DecidableEq, Repr

/-- The unmarshalling of a scanned value into a destination of type `α`
(`d.value`): the destination afterwards, and whether an `UnmarshalTypeError`
was saved on the way. -/
abbrev Unmarshaler (α : Type) := JValue → α → α × Bool

/-- Go's `json.NewDecoder(body).Decode(&d)` for a destination whose
unmarshalling is `unmarshal`: the destination afterwards, and the error
returned. -/
def Decode {α : Type} (unmarshal : Unmarshaler α) (body : String) (d : α) :
    α × Option DecodeError :=
  match readValue body.data with
  | none => (d, some .scan)
  | some (v, _) =>
    ((unmarshal v d).1, if (unmarshal v d).2 then some .unmarshalType else none)

/-- Go's `json.Unmarshal(data, &d)`: as `Decode`, but the whole text is
checked first. -/
def Unmarshal {α : Type} (unmarshal : Unmarshaler α) (data : String) (d : α) :
    α × Option DecodeError :=
  match checkValid data.data with
  | none => (d, some .scan)
  | some v =>
    ((unmarshal v d).1, if (unmarshal v d).2 then some .unmarshalType else none)

/-- The number a string of decimal digits denotes. -/
def digitsValue (ds : List Char) : Nat :=
  ds.foldl (fun acc c => acc * 10 + (c.toNat - 48)) 0

/-- Go's `strconv.ParseInt(s, 10, 64)`: an optional sign and decimal digits,
within the range of `int64`; `none` for its syntax and range errors. -/
def ParseInt (s : List Char) : Option Int :=
  match s with
  | [] => none
  | c :: rest =>
    let ds := if c = '+' || c = '-' then rest else s
    if ds = [] || !ds.all isDigit then none
    else if c ≠ '-' && digitsValue ds ≥ 2 ^ 63 then none
    else if c = '-' && digitsValue ds > 2 ^ 63 then none
    else some (if c = '-' then -(digitsValue ds : Int) else (digitsValue ds : Int))

/-- Storing a scanned value into an `int` that holds `cur` (`literalStore`,
and the default cases of `d.array` and `d.object`): the value afterwards and
whether an `UnmarshalTypeError` was saved. A number that `ParseInt` accepts is
stored, `null` leaves the destination alone, anything else is a type error and
leaves it alone. -/
def storeInt (v : JValue) (cur : Int) : Int × Bool :=
  match v with
  | .number lit =>
    match ParseInt lit with
    | some n => (n, false)
    | none => (cur, true)
  | .null => (cur, false)
  | _ => (cur, true)

/-- Go's `foldRune` on the characters that matter for ASCII field names: an
ASCII lower-case letter folds to its upper-case letter, and the two other
characters in a fold orbit with ASCII letters, U+017F (long s) and U+212A
(Kelvin sign), fold to `S` and `K`. Every other character stands for itself
here; its orbit holds no ASCII character, so it equals no folded ASCII name
either way. -/
def foldRune (c : Char) : Char :=
  if 97 ≤ c.toNat && c.toNat ≤ 122 then Char.ofNat (c.toNat - 32)
  else if c.toNat = 0x17F then 'S'
  else if c.toNat = 0x212A then 'K'
  else c

/-- Go's `foldName`. -/
def foldName (s : String) : List Char :=
  s.data.map foldRune

/-- The struct `SystemStorage`. -/
structure SystemStorage where
  Total : Int := 0
  Used : Int := 0
  Available : Int := 0
  Snapshot : Int := 0
  LiveMount : Int := 0
  Miscellaneous : Int := 0
deriving DecidableEq, Repr

/-- The fields of `SystemStorage`, in the order of the declaration. -/
inductive SystemStorageField where
  | Total | Used | Available | Snapshot | LiveMount | Miscellaneous
deriving DecidableEq, Repr

/-- The JSON name of a field, from its struct tag. -/
def SystemStorageField.name : SystemStorageField → String
  | .Total => "total"
  | .Used => "used"
  | .Available => "available"
  | .Snapshot => "snapshot"
  | .LiveMount => "liveMount"
  | .Miscellaneous => "miscellaneous"

/-- Reads a field. -/
def SystemStorageField.get : SystemStorageField → SystemStorage → Int
  | .Total, d => d.Total
  | .Used, d => d.Used
  | .Available, d => d.Available
  | .Snapshot, d => d.Snapshot
  | .LiveMount, d => d.LiveMount
  | .Miscellaneous, d => d.Miscellaneous

/-- Writes a field. -/
def SystemStorageField.set : SystemStorageField → SystemStorage → Int → SystemStorage
  | .Total, d, n => { d with Total := n }
  | .Used, d, n => { d with Used := n }
  | .Available, d, n => { d with Available := n }
  | .Snapshot, d, n => { d with Snapshot := n }
  | .LiveMount, d, n => { d with LiveMount := n }
  | .Miscellaneous, d, n => { d with Miscellaneous := n }

/-- The field list `cachedTypeFields` builds for `SystemStorage`. -/
def systemStorageFields : List SystemStorageField :=
  [.Total, .Used, .Available, .Snapshot, .LiveMount, .Miscellaneous]

/-- The field an object key selects in `d.object`: the field with exactly
that name, otherwise the first field whose folded name equals the folded
key, otherwise none (the member is skipped). -/
def systemStorageField (key : String) : Option SystemStorageField :=
  match systemStorageFields.find? (fun f => f.name = key) with
  | some f => some f
  | none => systemStorageFields.find? (fun f => foldName f.name = foldName key)

/-- One member of an object stored into a `SystemStorage` (the loop body of
`d.object` for a struct). -/
def storeSystemStorageMember (acc : SystemStorage × Bool) (m : String × JValue) :
    SystemStorage × Bool :=
  match systemStorageField m.1 with
  | none => acc
  | some f => (f.set acc.1 (storeInt m.2 (f.get acc.1)).1, acc.2 || (storeInt m.2 (f.get acc.1)).2)

/-- Storing a scanned value into a `SystemStorage`: an object is stored member
by member, `null` leaves the struct alone, anything else is a type error. -/
def unmarshalSystemStorage (v : JValue) (d : SystemStorage) : SystemStorage × Bool :=
  match v with
  | .object ms => ms.foldl storeSystemStorageMember (d, false)
  | .null => (d, false)
  | _ => (d, true)

/-- A Go `map[string]int`: its entries, the most recently set first. The nil
map and the empty map are both the empty list (they read alike). -/
abbrev IntMap := List (String × Int)

/-- Go's map read `m[key]`: the zero value when the key is absent. -/
def IntMap.index (m : IntMap) (key : String) : Int :=
  match m.find? (fun e => e.1 = key) with
  | some e => e.2
  | none => 0

/-- Go's map write `m[key] = n`. -/
def IntMap.setIndex (m : IntMap) (key : String) (n : Int) : IntMap :=
  (key, n) :: m.filter (fun e => e.1 ≠ key)

/-- One member of an object stored into a `map[string]int` (the loop body of
`d.object` for a map): the value is stored into a fresh zero element, which is
then written under the key. -/
def storeIntMapMember (acc : IntMap × Bool) (m : String × JValue) : IntMap × Bool :=
  (acc.1.setIndex m.1 (storeInt m.2 0).1, acc.2 || (storeInt m.2 0).2)

/-- Storing a scanned value into a `map[string]int`: an object is stored
member by member, `null` sets the map to nil, anything else is a type
error. -/
def unmarshalIntMap (v : JValue) (d : IntMap) : IntMap × Bool :=
  match v with
  | .object ms => ms.foldl storeIntMapMember (d, false)
  | .null => ([], false)
  | _ => (d, true)

/-- The struct `VmStorageList`. The element type `VmStorage` has `float64`
fields and the embedded `ResultList` is declared outside the two files; both
are parameters. -/
structure VmStorageList (ResultList VmStorage : Type) where
  ResultList : Option ResultList := none
  Data : List VmStorage := []

/-- The struct `DataLocationUsageList`, with the embedded `ResultList` and the
element type as parameters. -/
structure DataLocationUsageList (ResultList DataLocationUsage : Type) where
  ResultList : Option ResultList := none
  Data : List DataLocationUsage := []

/-! ## The statistics accessors (`stat.go`)

Each accessor is run against a `Transport`. The unmarshalling of a scanned
value into the list types is a parameter of the four list accessors. The three
cases of `(resp, err)` in each accessor are the test
`if err != nil || resp == nil`: only a response without an error is decoded. -/

/-- The method `Rubrik.GetSystemStorage`. -/
def GetSystemStorage (env : Transport) (r : Rubrik) : Exec SystemStorage :=
  let m := makeRequest env r "GET" "/api/internal/stats/system_storage" {}
  { calls := m.calls, requests := m.requests,
    outcome :=
      match m.outcome with
      | .fatal => .fatal
      | .returned (none, _) => .returned {}
      | .returned (some _, some _) => .returned {}
      | .returned (some resp, none) =>
        let d : SystemStorage := {}
        .returned (Decode unmarshalSystemStorage resp.Body d).1 }

/-- The method `Rubrik.GetPerVMStorage`. -/
def GetPerVMStorage {ResultList VmStorage : Type}
    (unmarshal : Unmarshaler (VmStorageList ResultList VmStorage))
    (env : Transport) (r : Rubrik) : Exec (List VmStorage) :=
  let m := makeRequest env r "GET" "/api/internal/stats/per_vm_storage" {}
  { calls := m.calls, requests := m.requests,
    outcome :=
      match m.outcome with
      | .fatal => .fatal
      | .returned (none, _) => .returned []
      | .returned (some _, some _) => .returned []
      | .returned (some resp, none) =>
        let d : VmStorageList ResultList VmStorage := {}
        .returned (Decode unmarshal resp.Body d).1.Data }

/-- The method `Rubrik.GetStreamCount`. -/
def GetStreamCount (env : Transport) (r : Rubrik) : Exec Int :=
  let m := makeRequest env r "GET" "/api/internal/stats/streams/count" {}
  { calls := m.calls, requests := m.requests,
    outcome :=
      match m.outcome with
      | .fatal => .fatal
      | .returned (none, _) => .returned 0
      | .returned (some _, some _) => .returned 0
      | .returned (some resp, none) =>
        let body := resp.Body
        let data : IntMap := []
        .returned ((Unmarshal unmarshalIntMap body data).1.index "count") }

/-- The method `Rubrik.GetDataLocationUsage`. -/
def GetDataLocationUsage {ResultList DataLocationUsage : Type}
    (unmarshal : Unmarshaler (DataLocationUsageList ResultList DataLocationUsage))
    (env : Transport) (r : Rubrik) : Exec (List DataLocationUsage) :=
  let m := makeRequest env r "GET" "/api/internal/stats/data_location/usage" {}
  { calls := m.calls, requests := m.requests,
    outcome :=
      match m.outcome with
      | .fatal => .fatal
      | .returned (none, _) => .returned []
      | .returned (some _, some _) => .returned []
      | .returned (some resp, none) =>
        let data : DataLocationUsageList ResultList DataLocationUsage := {}
        .returned (Decode unmarshal resp.Body data).1.Data }

/-- The method `Rubrik.GetPhysicalIngest`. `TimeStat` is declared outside the
two files and is a parameter. -/
def GetPhysicalIngest {TimeStat : Type}
    (unmarshal : Unmarshaler (List TimeStat))
    (env : Transport) (r : Rubrik) : Exec (List TimeStat) :=
  let m := makeRequest env r "GET" "/api/internal/stats/physical_ingest/time_series"
    { params := [("range", ["-10min"])] }
  { calls := m.calls, requests := m.requests,
    outcome :=
      match m.outcome with
      | .fatal => .fatal
      | .returned (none, _) => .returned []
      | .returned (some _, some _) => .returned []
      | .returned (some resp, none) =>
        let data : List TimeStat := []
        .returned (Decode unmarshal resp.Body data).1 }

/-- The method `Rubrik.GetArchivalBandwith`. -/
def GetArchivalBandwith {TimeStat : Type}
    (unmarshal : Unmarshaler (List TimeStat))
    (env : Transport) (r : Rubrik) (locationID : String) (timerange : String) :
    Exec (List TimeStat) :=
  let timerange := if timerange = "" then "-1h" else timerange
  let m := makeRequest env r "GET" "/api/internal/stats/archival/bandwidth/time_series"
    { params := [("data_location_id", [locationID]), ("range", [timerange])] }
  { calls := m.calls, requests := m.requests,
    outcome :=
      match m.outcome with
      | .fatal => .fatal
      | .returned (none, _) => .returned []
      | .returned (some _, some _) => .returned []
      | .returned (some resp, none) =>
        let data : List TimeStat := []
        .returned (Decode unmarshal resp.Body data).1 }

/-- The method `Rubrik.GetRunawayRemaining`. -/
def GetRunawayRemaining (env : Transport) (r : Rubrik) : Exec Int :=
  let m := makeRequest env r "GET" "/api/internal/stats/runway_remaining" {}
  { calls := m.calls, requests := m.requests,
    outcome :=
      match m.outcome with
      | .fatal => .fatal
      | .returned (none, _) => .returned 0
      | .returned (some _, some _) => .returned 0
      | .returned (some resp, none) =>
        let data : IntMap := []
        .returned ((Decode unmarshalIntMap resp.Body data).1.index "days") }

/-- The method `Rubrik.GetAverageStorageGrowthPerDay`. -/
def GetAverageStorageGrowthPerDay (env : Transport) (r : Rubrik) : Exec Int :=
  let m := makeRequest env r "GET" "/api/internal/stats/average_storage_growth_per_day" {}
  { calls := m.calls, requests := m.requests,
    outcome :=
      match m.outcome with
      | .fatal => .fatal
      | .returned (none, _) => .returned 0
      | .returned (some _, some _) => .returned 0
      | .returned (some resp, none) =>
        let data : IntMap := []
        .returned ((Decode unmarshalIntMap resp.Body data).1.index "bytes") }

/-! ## Notions used in the statements -/

/-- The appliance answers the request of `makeRequest r reqType action p` with
`resp`: `http.NewRequest` accepts the request and `netClient.Do` returns
`resp` without an error. -/
def answers (env : Transport) (r : Rubrik) (reqType action : String) (p : RequestParams)
    (resp : Response) : Prop :=
  env.newRequestErr reqType (r.url ++ action ++ ("?" ++ p.params.Encode)) = false ∧
  env.Do (buildRequest r reqType action p) = some resp

/-- A transport that accepts every request and answers each with the same
response. -/
def constTransport (resp : Response) : Transport :=
  { newRequestErr := fun _ _ => false, Do := fun _ => some resp }

/-- A session for the examples. -/
def demoSession : Rubrik :=
  { url := "https://rubrik.example", username := "admin", password := "secret",
    sessionToken := "tok123", isLoggedIn := true }

/-- The parameters `GetArchivalBandwith` passes to `makeRequest`. -/
def archivalParams (locationID timerange : String) : RequestParams :=
  { params := [("data_location_id", [locationID]),
      ("range", [if timerange = "" then "-1h" else timerange])] }

/-- The run handed exactly one request to the client, with method GET and the
given URL. -/
def sendsOneGet {α : Type} (e : Exec α) (url : String) : Prop :=
  ∃ req, e.requests = [req] ∧ req.Method = "GET" ∧ req.URL = url

/-- The run of an accessor around its one call `makeRequest "GET" path p`,
whose full URL is `url`: that call and no other, never more than one request
handed to the client, exactly one (method GET, that URL) when
`http.NewRequest` accepts the URL, none and the end of the process when it
rejects it. -/
def oneCall {α : Type} (env : Transport) (e : Exec α) (path : String) (p : RequestParams)
    (url : String) : Prop :=
  e.calls = [⟨"GET", path, p⟩] ∧
  e.requests.length ≤ 1 ∧
  (env.newRequestErr "GET" url = false → sendsOneGet e url) ∧
  (env.newRequestErr "GET" url = true → e.requests = [] ∧ e.outcome = .fatal)

/-- A transport whose `http.NewRequest` rejects every URL that holds an ASCII
control character, as `url.Parse` does ("invalid control character in URL"),
and that answers every request it gets with the same response. -/
def ctlRejectingTransport (resp : Response) : Transport :=
  { newRequestErr := fun _ url => url.data.any (fun c => c.toNat < 32 || c.toNat = 127),
    Do := fun _ => some resp }

/-- A session whose base URL ends in a line feed. -/
def newlineSession : Rubrik :=
  { url := "https://rubrik.example\n", username := "admin", password := "secret",
    sessionToken := "tok123", isLoggedIn := true }

/-- The paths of the eight accessors, in the order of `stat.go`. -/
def accessorPaths : List String :=
  ["/api/internal/stats/system_storage",
   "/api/internal/stats/per_vm_storage",
   "/api/internal/stats/streams/count",
   "/api/internal/stats/data_location/usage",
   "/api/internal/stats/physical_ingest/time_series",
   "/api/internal/stats/archival/bandwidth/time_series",
   "/api/internal/stats/runway_remaining",
   "/api/internal/stats/average_storage_growth_per_day"]

/-- An unmarshalling that stores nothing, for the examples. -/
def storeNothing {α : Type} : Unmarshaler α :=
  fun _ d => (d, false)

/-- The examples' unmarshalling into a `VmStorageList`. -/
def demoVm : Unmarshaler (VmStorageList Unit Unit) := storeNothing

/-- The examples' unmarshalling into a `DataLocationUsageList`. -/
def demoDl : Unmarshaler (DataLocationUsageList Unit Unit) := storeNothing

/-- The examples' unmarshalling into a list of `TimeStat`. -/
def demoTs : Unmarshaler (List Unit) := storeNothing


/-- The body `{"total": 5} trailing`: a complete object followed by text. -/
def bodyObjectThenText : String := "\x7b\"total\": 5\x7d trailing"

/-- The truncated body `{"total": 5`. -/
def bodyTruncated : String := "\x7b\"total\": 5"

/-- An HTML page as a body. -/
def bodyHtml : String := "<html><body>502 Bad Gateway</body></html>"

/-- The range of a Go `int` on a 64-bit target. -/
def fitsInt (n : Int) : Prop :=
  -2 ^ 63 ≤ n ∧ n < 2 ^ 63

/-- The decimal text of an integer in a body (what `%d` writes). -/
def decimal (n : Int) : List Char :=
  (toString n).data

/-- A key that is written between quotes as it is: no quote, no backslash, no
control character. -/
def plainKey (k : String) : Prop :=
  ∀ c ∈ k.data, c ≠ '"' ∧ c ≠ '\\' ∧ 32 ≤ c.toNat

/-- The text `"key": value` of one member with an integer value. -/
def renderMember (m : String × Int) : List Char :=
  '"' :: (m.1.data ++ '"' :: ':' :: ' ' :: decimal m.2)

/-- The members of an object, separated by `, `. -/
def renderMembers : List (String × Int) → List Char
  | [] => []
  | m :: [] => renderMember m
  | m :: m2 :: ms => renderMember m ++ ',' :: ' ' :: renderMembers (m2 :: ms)

/-- The text `{"k1": v1, "k2": v2, ...}` of an object with integer values. -/
def renderObject (ms : List (String × Int)) : String :=
  ⟨'{' :: (renderMembers ms ++ ['}'])⟩

/-- The scanned form of a member with an integer value. -/
def memberValue (m : String × Int) : String × JValue :=
  (m.1, .number (decimal m.2))

/-- The text after a number does not continue it: it is empty or starts with a
character that is no digit, `.`, `e` or `E`. -/
def endsNumber (rest : List Char) : Prop :=
  ∀ c ∈ rest.head?, isDigit c = false ∧ c ≠ '.' ∧ c ≠ 'e' ∧ c ≠ 'E'


/-- The body `{"count": 42}`. -/
def bodyCount42 : String := "\x7b\"count\": 42\x7d"

/-- The body `{"streams": 3, "Count": 9}`, without the key `count`. -/
def bodyNoCount : String := "\x7b\"streams\": 3, \"Count\": 9\x7d"

/-- A full system storage body, the keys in another order than the fields:
`{"used": 2, "miscellaneous": 6, "total": 1, "snapshot": -4, "liveMount": 5,
"available": 3}`. -/
def bodyFullStorage : String :=
  "\x7b\"used\": 2, \"miscellaneous\": 6, \"total\": 1, \"snapshot\": -4, " ++
    "\"liveMount\": 5, \"available\": 3\x7d"

/-! ## Statements -/

/-! ### makeRequest -/

theorem answers_constTransport (resp : Response) (r : Rubrik) (reqType action : String)
    (p : RequestParams) : answers (constTransport resp) r reqType action p resp :=
  ⟨rfl, rfl⟩

theorem makeRequest_of_answers {env : Transport} {r : Rubrik} {reqType action : String}
    {p : RequestParams} {resp : Response} (h : answers env r reqType action p resp) :
    makeRequest env r reqType action p =
      if resp.StatusCode < 200 || resp.StatusCode >= 300 then
        { calls := [⟨reqType, action, p⟩], requests := [buildRequest r reqType action p],
          outcome := .returned
            (none, some ("HTTP " ++ toString resp.StatusCode ++ ": " ++ action)) }
      else
        { calls := [⟨reqType, action, p⟩], requests := [buildRequest r reqType action p],
          outcome := .returned (some resp, none) } := by
  obtain ⟨h1, h2⟩ := h
  simp only [makeRequest, h1, h2, Bool.false_eq_true, if_false]

theorem makeRequest_non2xx {env : Transport} {r : Rubrik} {reqType action : String}
    {p : RequestParams} {resp : Response} (h : answers env r reqType action p resp)
    (hs : resp.StatusCode < 200 ∨ resp.StatusCode ≥ 300) :
    (makeRequest env r reqType action p).outcome =
      .returned (none, some ("HTTP " ++ toString resp.StatusCode ++ ": " ++ action)) := by
  rw [makeRequest_of_answers h]
  have : (decide (resp.StatusCode < 200) || decide (resp.StatusCode ≥ 300)) = true := by
    rcases hs with hs | hs <;> simp [hs]
  rw [if_pos this]

theorem makeRequest_2xx {env : Transport} {r : Rubrik} {reqType action : String}
    {p : RequestParams} {resp : Response} (h : answers env r reqType action p resp)
    (hs : 200 ≤ resp.StatusCode ∧ resp.StatusCode ≤ 299) :
    (makeRequest env r reqType action p).outcome = .returned (some resp, none) := by
  rw [makeRequest_of_answers h]
  have : ¬ (decide (resp.StatusCode < 200) || decide (resp.StatusCode ≥ 300)) = true := by
    simp only [Bool.or_eq_true, decide_eq_true_eq, not_or, not_lt, ge_iff_le, not_le]
    omega
  rw [if_neg this]

/-- C1: once the HTTP call has produced a response with status code `s`,
`makeRequest` returns an error and no response exactly when `s < 200` or
`s ≥ 300`, and for `200 ≤ s ≤ 299` it returns that response with a nil
error. -/
theorem makeRequest_status (env : Transport) (r : Rubrik) (reqType action : String)
    (p : RequestParams) (resp : Response) (h : answers env r reqType action p resp) :
    ((∃ e, (makeRequest env r reqType action p).outcome = .returned (none, some e)) ↔
        (resp.StatusCode < 200 ∨ resp.StatusCode ≥ 300)) ∧
    (200 ≤ resp.StatusCode ∧ resp.StatusCode ≤ 299 →
        (makeRequest env r reqType action p).outcome = .returned (some resp, none)) := by
  refine ⟨⟨?_, ?_⟩, makeRequest_2xx h⟩
  · rintro ⟨e, he⟩
    by_contra hs
    have h2 : 200 ≤ resp.StatusCode ∧ resp.StatusCode ≤ 299 := by omega
    rw [makeRequest_2xx h h2] at he
    simp at he
  · intro hs
    exact ⟨_, makeRequest_non2xx h hs⟩

/-- The status codes 199 and 300 are errors without a response, 200 and 299
return the response. -/
theorem makeRequest_status_witness :
    ((∃ e, (makeRequest (constTransport ⟨199, "x"⟩) demoSession "GET" "/a" {}).outcome
        = .returned (none, some e)) ↔ ((199 : Int) < 200 ∨ (199 : Int) ≥ 300)) ∧
    ((∃ e, (makeRequest (constTransport ⟨300, "x"⟩) demoSession "GET" "/a" {}).outcome
        = .returned (none, some e)) ↔ ((300 : Int) < 200 ∨ (300 : Int) ≥ 300)) ∧
    (makeRequest (constTransport ⟨200, "x"⟩) demoSession "GET" "/a" {}).outcome
        = .returned (some ⟨200, "x"⟩, none) ∧
    (makeRequest (constTransport ⟨299, "x"⟩) demoSession "GET" "/a" {}).outcome
        = .returned (some ⟨299, "x"⟩, none) :=
  ⟨(makeRequest_status _ demoSession "GET" "/a" {} ⟨199, "x"⟩ (answers_constTransport _ _ _ _ _)).1,
   (makeRequest_status _ demoSession "GET" "/a" {} ⟨300, "x"⟩ (answers_constTransport _ _ _ _ _)).1,
   (makeRequest_status _ demoSession "GET" "/a" {} ⟨200, "x"⟩ (answers_constTransport _ _ _ _ _)).2
     (by decide),
   (makeRequest_status _ demoSession "GET" "/a" {} ⟨299, "x"⟩ (answers_constTransport _ _ _ _ _)).2
     (by decide)⟩

/-! ### The shape shared by the accessors -/

theorem GetSystemStorage_non2xx {env : Transport} {r : Rubrik} {resp : Response}
    (h : answers env r "GET" "/api/internal/stats/system_storage" {} resp)
    (hs : resp.StatusCode < 200 ∨ resp.StatusCode ≥ 300) :
    (GetSystemStorage env r).outcome = .returned ({} : SystemStorage) := by
  simp only [GetSystemStorage, makeRequest_non2xx h hs]

theorem GetSystemStorage_2xx {env : Transport} {r : Rubrik} {resp : Response}
    (h : answers env r "GET" "/api/internal/stats/system_storage" {} resp)
    (hs : 200 ≤ resp.StatusCode ∧ resp.StatusCode ≤ 299) :
    (GetSystemStorage env r).outcome = .returned (Decode unmarshalSystemStorage resp.Body {}).1 := by
  simp only [GetSystemStorage, makeRequest_2xx h hs]

theorem GetPerVMStorage_non2xx {ResultList VmStorage : Type} 
    (unmarshal : Unmarshaler (VmStorageList ResultList VmStorage))
    {env : Transport} {r : Rubrik} {resp : Response}
    (h : answers env r "GET" "/api/internal/stats/per_vm_storage" {} resp)
    (hs : resp.StatusCode < 200 ∨ resp.StatusCode ≥ 300) :
    (GetPerVMStorage unmarshal env r).outcome = .returned ([] : List VmStorage) := by
  simp only [GetPerVMStorage, makeRequest_non2xx h hs]

theorem GetPerVMStorage_2xx {ResultList VmStorage : Type} 
    (unmarshal : Unmarshaler (VmStorageList ResultList VmStorage))
    {env : Transport} {r : Rubrik} {resp : Response}
    (h : answers env r "GET" "/api/internal/stats/per_vm_storage" {} resp)
    (hs : 200 ≤ resp.StatusCode ∧ resp.StatusCode ≤ 299) :
    (GetPerVMStorage unmarshal env r).outcome = .returned (Decode unmarshal resp.Body {}).1.Data := by
  simp only [GetPerVMStorage, makeRequest_2xx h hs]

theorem GetStreamCount_non2xx {env : Transport} {r : Rubrik} {resp : Response}
    (h : answers env r "GET" "/api/internal/stats/streams/count" {} resp)
    (hs : resp.StatusCode < 200 ∨ resp.StatusCode ≥ 300) :
    (GetStreamCount env r).outcome = .returned (0 : Int) := by
  simp only [GetStreamCount, makeRequest_non2xx h hs]

theorem GetStreamCount_2xx {env : Transport} {r : Rubrik} {resp : Response}
    (h : answers env r "GET" "/api/internal/stats/streams/count" {} resp)
    (hs : 200 ≤ resp.StatusCode ∧ resp.StatusCode ≤ 299) :
    (GetStreamCount env r).outcome = .returned ((Unmarshal unmarshalIntMap resp.Body []).1.index "count") := by
  simp only [GetStreamCount, makeRequest_2xx h hs]

theorem GetDataLocationUsage_non2xx {ResultList DataLocationUsage : Type} 
    (unmarshal : Unmarshaler (DataLocationUsageList ResultList DataLocationUsage))
    {env : Transport} {r : Rubrik} {resp : Response}
    (h : answers env r "GET" "/api/internal/stats/data_location/usage" {} resp)
    (hs : resp.StatusCode < 200 ∨ resp.StatusCode ≥ 300) :
    (GetDataLocationUsage unmarshal env r).outcome = .returned ([] : List DataLocationUsage) := by
  simp only [GetDataLocationUsage, makeRequest_non2xx h hs]

theorem GetDataLocationUsage_2xx {ResultList DataLocationUsage : Type} 
    (unmarshal : Unmarshaler (DataLocationUsageList ResultList DataLocationUsage))
    {env : Transport} {r : Rubrik} {resp : Response}
    (h : answers env r "GET" "/api/internal/stats/data_location/usage" {} resp)
    (hs : 200 ≤ resp.StatusCode ∧ resp.StatusCode ≤ 299) :
    (GetDataLocationUsage unmarshal env r).outcome = .returned (Decode unmarshal resp.Body {}).1.Data := by
  simp only [GetDataLocationUsage, makeRequest_2xx h hs]

theorem GetPhysicalIngest_non2xx {TimeStat : Type} 
    (unmarshal : Unmarshaler (List TimeStat)) {env : Transport} {r : Rubrik} {resp : Response}
    (h : answers env r "GET" "/api/internal/stats/physical_ingest/time_series" { params := [("range", ["-10min"])] } resp)
    (hs : resp.StatusCode < 200 ∨ resp.StatusCode ≥ 300) :
    (GetPhysicalIngest unmarshal env r).outcome = .returned ([] : List TimeStat) := by
  simp only [GetPhysicalIngest, makeRequest_non2xx h hs]

theorem GetPhysicalIngest_2xx {TimeStat : Type} 
    (unmarshal : Unmarshaler (List TimeStat)) {env : Transport} {r : Rubrik} {resp : Response}
    (h : answers env r "GET" "/api/internal/stats/physical_ingest/time_series" { params := [("range", ["-10min"])] } resp)
    (hs : 200 ≤ resp.StatusCode ∧ resp.StatusCode ≤ 299) :
    (GetPhysicalIngest unmarshal env r).outcome = .returned (Decode unmarshal resp.Body []).1 := by
  simp only [GetPhysicalIngest, makeRequest_2xx h hs]

theorem GetRunawayRemaining_non2xx {env : Transport} {r : Rubrik} {resp : Response}
    (h : answers env r "GET" "/api/internal/stats/runway_remaining" {} resp)
    (hs : resp.StatusCode < 200 ∨ resp.StatusCode ≥ 300) :
    (GetRunawayRemaining env r).outcome = .returned (0 : Int) := by
  simp only [GetRunawayRemaining, makeRequest_non2xx h hs]

theorem GetRunawayRemaining_2xx {env : Transport} {r : Rubrik} {resp : Response}
    (h : answers env r "GET" "/api/internal/stats/runway_remaining" {} resp)
    (hs : 200 ≤ resp.StatusCode ∧ resp.StatusCode ≤ 299) :
    (GetRunawayRemaining env r).outcome = .returned ((Decode unmarshalIntMap resp.Body []).1.index "days") := by
  simp only [GetRunawayRemaining, makeRequest_2xx h hs]

theorem GetAverageStorageGrowthPerDay_non2xx {env : Transport} {r : Rubrik} {resp : Response}
    (h : answers env r "GET" "/api/internal/stats/average_storage_growth_per_day" {} resp)
    (hs : resp.StatusCode < 200 ∨ resp.StatusCode ≥ 300) :
    (GetAverageStorageGrowthPerDay env r).outcome = .returned (0 : Int) := by
  simp only [GetAverageStorageGrowthPerDay, makeRequest_non2xx h hs]

theorem GetAverageStorageGrowthPerDay_2xx {env : Transport} {r : Rubrik} {resp : Response}
    (h : answers env r "GET" "/api/internal/stats/average_storage_growth_per_day" {} resp)
    (hs : 200 ≤ resp.StatusCode ∧ resp.StatusCode ≤ 299) :
    (GetAverageStorageGrowthPerDay env r).outcome = .returned ((Decode unmarshalIntMap resp.Body []).1.index "bytes") := by
  simp only [GetAverageStorageGrowthPerDay, makeRequest_2xx h hs]

theorem GetArchivalBandwith_non2xx {TimeStat : Type}
    (unmarshal : Unmarshaler (List TimeStat))
    {env : Transport} {r : Rubrik} {resp : Response} (locationID timerange : String)
    (h : answers env r "GET" "/api/internal/stats/archival/bandwidth/time_series"
      (archivalParams locationID timerange) resp)
    (hs : resp.StatusCode < 200 ∨ resp.StatusCode ≥ 300) :
    (GetArchivalBandwith unmarshal env r locationID timerange).outcome
      = .returned ([] : List TimeStat) := by
  simp only [GetArchivalBandwith]
  rw [show ({ params := [("data_location_id", [locationID]),
      ("range", [if timerange = "" then "-1h" else timerange])] } : RequestParams)
      = archivalParams locationID timerange from rfl, makeRequest_non2xx h hs]

theorem GetArchivalBandwith_2xx {TimeStat : Type}
    (unmarshal : Unmarshaler (List TimeStat))
    {env : Transport} {r : Rubrik} {resp : Response} (locationID timerange : String)
    (h : answers env r "GET" "/api/internal/stats/archival/bandwidth/time_series"
      (archivalParams locationID timerange) resp)
    (hs : 200 ≤ resp.StatusCode ∧ resp.StatusCode ≤ 299) :
    (GetArchivalBandwith unmarshal env r locationID timerange).outcome
      = .returned (Decode unmarshal resp.Body []).1 := by
  simp only [GetArchivalBandwith]
  rw [show ({ params := [("data_location_id", [locationID]),
      ("range", [if timerange = "" then "-1h" else timerange])] } : RequestParams)
      = archivalParams locationID timerange from rfl, makeRequest_2xx h hs]

/-- C2: when the appliance answers with a status outside 200..299, each of the
eight accessors returns the zero value of its result type (the all-zero
`SystemStorage`, the empty list, or 0), whatever the body is. -/
theorem accessors_non2xx_zero {ResultList VmStorage DataLocationUsage TimeStat : Type}
    (uVm : Unmarshaler (VmStorageList ResultList VmStorage))
    (uDl : Unmarshaler (DataLocationUsageList ResultList DataLocationUsage))
    (uTs : Unmarshaler (List TimeStat))
    (env : Transport) (r : Rubrik) (locationID timerange : String) (resp : Response)
    (hs : resp.StatusCode < 200 ∨ resp.StatusCode ≥ 300) :
    (answers env r "GET" "/api/internal/stats/system_storage" {} resp →
      (GetSystemStorage env r).outcome = .returned ⟨0, 0, 0, 0, 0, 0⟩) ∧
    (answers env r "GET" "/api/internal/stats/per_vm_storage" {} resp →
      ∃ l, (GetPerVMStorage uVm env r).outcome = .returned l ∧ l.length = 0) ∧
    (answers env r "GET" "/api/internal/stats/streams/count" {} resp →
      (GetStreamCount env r).outcome = .returned 0) ∧
    (answers env r "GET" "/api/internal/stats/data_location/usage" {} resp →
      ∃ l, (GetDataLocationUsage uDl env r).outcome = .returned l ∧ l.length = 0) ∧
    (answers env r "GET" "/api/internal/stats/physical_ingest/time_series"
        { params := [("range", ["-10min"])] } resp →
      ∃ l, (GetPhysicalIngest uTs env r).outcome = .returned l ∧ l.length = 0) ∧
    (answers env r "GET" "/api/internal/stats/archival/bandwidth/time_series"
        (archivalParams locationID timerange) resp →
      ∃ l, (GetArchivalBandwith uTs env r locationID timerange).outcome = .returned l ∧
        l.length = 0) ∧
    (answers env r "GET" "/api/internal/stats/runway_remaining" {} resp →
      (GetRunawayRemaining env r).outcome = .returned 0) ∧
    (answers env r "GET" "/api/internal/stats/average_storage_growth_per_day" {} resp →
      (GetAverageStorageGrowthPerDay env r).outcome = .returned 0) :=
  ⟨fun h => GetSystemStorage_non2xx h hs,
   fun h => ⟨[], GetPerVMStorage_non2xx uVm h hs, rfl⟩,
   fun h => GetStreamCount_non2xx h hs,
   fun h => ⟨[], GetDataLocationUsage_non2xx uDl h hs, rfl⟩,
   fun h => ⟨[], GetPhysicalIngest_non2xx uTs h hs, rfl⟩,
   fun h => ⟨[], GetArchivalBandwith_non2xx uTs locationID timerange h hs, rfl⟩,
   fun h => GetRunawayRemaining_non2xx h hs,
   fun h => GetAverageStorageGrowthPerDay_non2xx h hs⟩

/-- A 404 answer whose body is a well-formed, fully populated object still
gives the zero values. -/
theorem accessors_non2xx_zero_witness :
    (GetSystemStorage (constTransport ⟨404, "\x7b\"total\": 5, \"used\": 3\x7d"⟩) demoSession).outcome
      = .returned ⟨0, 0, 0, 0, 0, 0⟩ ∧
    (GetStreamCount (constTransport ⟨404, "\x7b\"total\": 5, \"used\": 3\x7d"⟩) demoSession).outcome
      = .returned 0 ∧
    (GetRunawayRemaining (constTransport ⟨404, "\x7b\"total\": 5, \"used\": 3\x7d"⟩)
      demoSession).outcome = .returned 0 :=
  have h := accessors_non2xx_zero demoVm demoDl demoTs
    (constTransport ⟨404, "\x7b\"total\": 5, \"used\": 3\x7d"⟩) demoSession "loc1" ""
    ⟨404, "\x7b\"total\": 5, \"used\": 3\x7d"⟩ (Or.inr (by decide))
  ⟨h.1 (answers_constTransport _ _ _ _ _),
   h.2.2.1 (answers_constTransport _ _ _ _ _),
   h.2.2.2.2.2.2.1 (answers_constTransport _ _ _ _ _)⟩

/-! ### The request that is built -/

theorem makeRequest_calls (env : Transport) (r : Rubrik) (reqType action : String)
    (p : RequestParams) : (makeRequest env r reqType action p).calls = [⟨reqType, action, p⟩] := by
  simp only [makeRequest]
  split
  · rfl
  · split
    · rfl
    · split <;> rfl

theorem makeRequest_requests_sub (env : Transport) (r : Rubrik) (reqType action : String)
    (p : RequestParams) :
    ∀ req ∈ (makeRequest env r reqType action p).requests, req = buildRequest r reqType action p := by
  simp only [makeRequest]
  split
  · simp
  · split
    · simp
    · split <;> simp

theorem makeRequest_requests_of_accept {env : Transport} {r : Rubrik} {reqType action : String}
    {p : RequestParams}
    (h : env.newRequestErr reqType (r.url ++ action ++ ("?" ++ p.params.Encode)) = false) :
    (makeRequest env r reqType action p).requests = [buildRequest r reqType action p] := by
  simp only [makeRequest, h, Bool.false_eq_true, if_false]
  split
  · rfl
  · split <;> rfl

theorem buildRequest_header (r : Rubrik) (reqType action : String) (p : RequestParams) :
    (buildRequest r reqType action p).Header =
      [("Content-Type", ["text/JSON"]), ("Authorization", ["Bearer " ++ r.sessionToken])] := by
  simp [buildRequest, Header.Set]

theorem buildRequest_url (r : Rubrik) (reqType action : String) (p : RequestParams) :
    (buildRequest r reqType action p).URL = r.url ++ action ++ "?" ++ p.params.Encode := by
  simp [buildRequest, String.append_assoc]

theorem buildRequest_method (r : Rubrik) (reqType action : String) (p : RequestParams) :
    (buildRequest r reqType action p).Method = reqType := rfl

/-- C9: every request `makeRequest` builds carries the header `Authorization`
equal to `"Bearer "` followed by the session token, and the header
`Content-Type` equal to `"text/JSON"`, and nothing else; the `header` field of
the parameters has no effect on the request. -/
theorem makeRequest_headers (env : Transport) (r : Rubrik) (reqType action : String)
    (p : RequestParams) :
    (∀ req ∈ (makeRequest env r reqType action p).requests,
      req.Header.Get "Authorization" = "Bearer " ++ r.sessionToken ∧
      req.Header.Get "Content-Type" = "text/JSON" ∧
      req.Header = [("Content-Type", ["text/JSON"]),
        ("Authorization", ["Bearer " ++ r.sessionToken])]) ∧
    (∀ h : String, (makeRequest env r reqType action { p with header := h }).requests =
      (makeRequest env r reqType action p).requests) := by
  constructor
  · intro req hreq
    rw [makeRequest_requests_sub env r reqType action p req hreq, buildRequest_header]
    simp [Header.Get]
  · intro h
    simp only [makeRequest, buildRequest]
    split
    · rfl
    · split
      · rfl
      · split <;> rfl

/-- The request sent for the demo session carries its token, also when the
token is empty, whatever `header` holds. -/
theorem makeRequest_headers_witness :
    (∀ req ∈ (makeRequest (constTransport ⟨200, "\x7b\x7d"⟩) demoSession "GET" "/a"
        { header := "X-Other: 1" }).requests,
      req.Header.Get "Authorization" = "Bearer tok123" ∧
      req.Header.Get "Content-Type" = "text/JSON" ∧
      req.Header = [("Content-Type", ["text/JSON"]), ("Authorization", ["Bearer tok123"])]) ∧
    (∀ req ∈ (makeRequest (constTransport ⟨200, "\x7b\x7d"⟩) { demoSession with sessionToken := "" }
        "POST" "/b" {}).requests,
      req.Header.Get "Authorization" = "Bearer " ∧
      req.Header.Get "Content-Type" = "text/JSON" ∧
      req.Header = [("Content-Type", ["text/JSON"]), ("Authorization", ["Bearer "])]) ∧
    (makeRequest (constTransport ⟨200, "\x7b\x7d"⟩) demoSession "GET" "/a"
        { header := "X-Other: 1" }).requests ≠ [] :=
  ⟨(makeRequest_headers (constTransport ⟨200, "\x7b\x7d"⟩) demoSession "GET" "/a"
      { header := "X-Other: 1" }).1,
   (makeRequest_headers (constTransport ⟨200, "\x7b\x7d"⟩) { demoSession with sessionToken := "" }
      "POST" "/b" {}).1,
   by decide⟩

theorem makeRequest_requests_length (env : Transport) (r : Rubrik) (reqType action : String)
    (p : RequestParams) : (makeRequest env r reqType action p).requests.length ≤ 1 := by
  simp only [makeRequest]
  split
  · simp
  · split
    · simp
    · split <;> simp

theorem makeRequest_sendsOneGet {env : Transport} {r : Rubrik} {action : String}
    (p : RequestParams) (q : String) (hq : "?" ++ p.params.Encode = q)
    (h : env.newRequestErr "GET" (r.url ++ action ++ q) = false) :
    sendsOneGet (makeRequest env r "GET" action p) (r.url ++ action ++ q) := by
  subst hq
  exact ⟨_, makeRequest_requests_of_accept h, rfl, rfl⟩

/-! ### Query encoding -/

theorem encode_archivalParams (locationID timerange : String) :
    (archivalParams locationID timerange).params.Encode =
      "data_location_id=" ++ QueryEscape locationID ++ "&range=" ++
        QueryEscape (if timerange = "" then "-1h" else timerange) := by
  have hsort : sortKeys ["data_location_id", "range"] = ["data_location_id", "range"] := by
    decide
  have hk1 : QueryEscape "data_location_id" = "data_location_id" := by decide
  have hk2 : QueryEscape "range" = "range" := by decide
  simp only [archivalParams, Values.Encode, List.length_cons, List.length_nil, List.map_cons,
    List.map_nil, hsort, encodeKeys, Values.get, encodeKey, hk1, hk2]
  have hlen : 0 < "data_location_id=".length := by decide
  simp [String.append_assoc, hlen]

theorem archival_url_default (r : Rubrik) :
    r.url ++ "/api/internal/stats/archival/bandwidth/time_series" ++
        ("?" ++ (archivalParams "loc1" "").params.Encode) =
      r.url ++ "/api/internal/stats/archival/bandwidth/time_series" ++ "?" ++
        "data_location_id=loc1&range=-1h" := by
  have h : (archivalParams "loc1" "").params.Encode = "data_location_id=loc1&range=-1h" := by
    decide
  rw [h, String.append_assoc, String.append_assoc, String.append_assoc]

theorem archival_url_30min (r : Rubrik) (locationID : String) :
    r.url ++ "/api/internal/stats/archival/bandwidth/time_series" ++
        ("?" ++ (archivalParams locationID "-30min").params.Encode) =
      r.url ++ "/api/internal/stats/archival/bandwidth/time_series" ++ "?" ++
        ("data_location_id=" ++ QueryEscape locationID ++ "&") ++ "range=-30min" := by
  have h : QueryEscape (if ("-30min" : String) = "" then "-1h" else "-30min") = "-30min" := by
    decide
  rw [encode_archivalParams, h]
  simp only [String.append_assoc]
  rfl

/-- C5 as stated fails: for `locationID = "loc1"` and an empty `timerange` the
request goes to `...?data_location_id=loc1&range=-1h`, the keys in sorted
order, not to `...?range=-1h&data_location_id=loc1`. -/
theorem archival_query_range_first_counterexample :
    (GetArchivalBandwith demoTs (constTransport ⟨200, "[]"⟩)
        demoSession "loc1" "").requests.map (fun req => req.URL) =
      ["https://rubrik.example/api/internal/stats/archival/bandwidth/time_series" ++
        "?data_location_id=loc1&range=-1h"] ∧
    (GetArchivalBandwith demoTs (constTransport ⟨200, "[]"⟩)
        demoSession "loc1" "").requests.map (fun req => req.URL) ≠
      ["https://rubrik.example/api/internal/stats/archival/bandwidth/time_series" ++
        "?range=-1h&data_location_id=loc1"] := by
  constructor <;> decide

/-- C5, amended: called with `locationID = "loc1"` and an empty `timerange`,
`GetArchivalBandwith` requests the query string
`data_location_id=loc1&range=-1h` (keys sorted, `data_location_id` first);
called with `timerange = "-30min"` the query string ends in `range=-30min`,
after the escaped `data_location_id` pair. -/
theorem archival_query_sorted {TimeStat : Type} (uTs : Unmarshaler (List TimeStat))
    (env : Transport) (r : Rubrik) :
    (env.newRequestErr "GET"
        (r.url ++ "/api/internal/stats/archival/bandwidth/time_series" ++ "?" ++
          "data_location_id=loc1&range=-1h") = false →
      sendsOneGet (GetArchivalBandwith uTs env r "loc1" "")
        (r.url ++ "/api/internal/stats/archival/bandwidth/time_series" ++ "?" ++
          "data_location_id=loc1&range=-1h")) ∧
    (∀ locationID : String,
      env.newRequestErr "GET"
        (r.url ++ "/api/internal/stats/archival/bandwidth/time_series" ++ "?" ++
          ("data_location_id=" ++ QueryEscape locationID ++ "&") ++ "range=-30min") = false →
      sendsOneGet (GetArchivalBandwith uTs env r locationID "-30min")
        (r.url ++ "/api/internal/stats/archival/bandwidth/time_series" ++ "?" ++
          ("data_location_id=" ++ QueryEscape locationID ++ "&") ++ "range=-30min")) := by
  constructor
  · intro h
    rw [← archival_url_default] at h ⊢
    exact makeRequest_sendsOneGet (archivalParams "loc1" "") _ rfl h
  · intro locationID h
    rw [← archival_url_30min] at h ⊢
    exact makeRequest_sendsOneGet (archivalParams locationID "-30min") _ rfl h

/-- The two requests of the amended C5 for the demo session. -/
theorem archival_query_sorted_witness :
    sendsOneGet
      (GetArchivalBandwith demoTs (constTransport ⟨200, "[]"⟩)
        demoSession "loc1" "")
      (demoSession.url ++ "/api/internal/stats/archival/bandwidth/time_series" ++ "?" ++
        "data_location_id=loc1&range=-1h") ∧
    sendsOneGet
      (GetArchivalBandwith demoTs (constTransport ⟨200, "[]"⟩)
        demoSession "site a" "-30min")
      (demoSession.url ++ "/api/internal/stats/archival/bandwidth/time_series" ++ "?" ++
        ("data_location_id=" ++ QueryEscape "site a" ++ "&") ++ "range=-30min") :=
  ⟨(archival_query_sorted storeNothing (constTransport ⟨200, "[]"⟩) demoSession).1 rfl,
   (archival_query_sorted storeNothing (constTransport ⟨200, "[]"⟩) demoSession).2 "site a" rfl⟩

/-- C6: `GetArchivalBandwith` calls `makeRequest` once, with parameters that
have exactly the two keys `data_location_id` and `range`; the first holds the
single value `locationID`, the second the single value `"-1h"` when
`timerange` is empty and `timerange` itself otherwise. -/
theorem archival_params_default {TimeStat : Type} (uTs : Unmarshaler (List TimeStat))
    (env : Transport) (r : Rubrik) (locationID timerange : String) :
    ∃ p : RequestParams,
      (GetArchivalBandwith uTs env r locationID timerange).calls =
        [⟨"GET", "/api/internal/stats/archival/bandwidth/time_series", p⟩] ∧
      p.params.map (fun e => e.1) = ["data_location_id", "range"] ∧
      p.params.get "data_location_id" = [locationID] ∧
      (timerange = "" → p.params.get "range" = ["-1h"]) ∧
      (timerange ≠ "" → p.params.get "range" = [timerange]) := by
  refine ⟨archivalParams locationID timerange, makeRequest_calls _ _ _ _ _, rfl, ?_, ?_, ?_⟩
  · simp [archivalParams, Values.get]
  · intro h
    simp [archivalParams, Values.get, h]
  · intro h
    simp [archivalParams, Values.get, h]

/-- The parameters of the call for an empty and for a non-empty `timerange`. -/
theorem archival_params_default_witness :
    (∃ p : RequestParams,
      (GetArchivalBandwith demoTs (constTransport ⟨200, "[]"⟩)
        demoSession "loc1" "").calls =
        [⟨"GET", "/api/internal/stats/archival/bandwidth/time_series", p⟩] ∧
      p.params.map (fun e => e.1) = ["data_location_id", "range"] ∧
      p.params.get "data_location_id" = ["loc1"] ∧ p.params.get "range" = ["-1h"]) ∧
    (∃ p : RequestParams,
      (GetArchivalBandwith demoTs (constTransport ⟨200, "[]"⟩)
        demoSession "loc1" "-7d").calls =
        [⟨"GET", "/api/internal/stats/archival/bandwidth/time_series", p⟩] ∧
      p.params.map (fun e => e.1) = ["data_location_id", "range"] ∧
      p.params.get "data_location_id" = ["loc1"] ∧ p.params.get "range" = ["-7d"]) :=
  ⟨(archival_params_default demoTs (constTransport ⟨200, "[]"⟩)
      demoSession "loc1" "").elim fun p hp => ⟨p, hp.1, hp.2.1, hp.2.2.1, hp.2.2.2.1 rfl⟩,
   (archival_params_default demoTs (constTransport ⟨200, "[]"⟩)
      demoSession "loc1" "-7d").elim fun p hp =>
        ⟨p, hp.1, hp.2.1, hp.2.2.1, hp.2.2.2.2 (by decide)⟩⟩

/-! ### One request per accessor -/

theorem makeRequest_rejected {env : Transport} {r : Rubrik} {reqType action : String}
    {p : RequestParams}
    (h : env.newRequestErr reqType (r.url ++ action ++ ("?" ++ p.params.Encode)) = true) :
    (makeRequest env r reqType action p).requests = [] ∧
    (makeRequest env r reqType action p).outcome = .fatal := by
  simp only [makeRequest, h, if_true, and_self]

theorem oneCall_intro {α : Type} (env : Transport) (e : Exec α) (r : Rubrik) (path : String)
    (p : RequestParams) (q : String) (hq : "?" ++ p.params.Encode = q)
    (hc : e.calls = (makeRequest env r "GET" path p).calls)
    (hr : e.requests = (makeRequest env r "GET" path p).requests)
    (hf : (makeRequest env r "GET" path p).outcome = .fatal → e.outcome = .fatal) :
    oneCall env e path p (r.url ++ path ++ q) := by
  subst hq
  refine ⟨by rw [hc]; exact makeRequest_calls _ _ _ _ _,
    by rw [hr]; exact makeRequest_requests_length _ _ _ _ _, fun h => ?_, fun h => ?_⟩
  · obtain ⟨req, h1, h2, h3⟩ := makeRequest_sendsOneGet p _ rfl h
    exact ⟨req, by rw [hr]; exact h1, h2, h3⟩
  · exact ⟨by rw [hr]; exact (makeRequest_rejected h).1, hf (makeRequest_rejected h).2⟩

theorem archival_query (locationID timerange : String) :
    "?" ++ (archivalParams locationID timerange).params.Encode =
      "?data_location_id=" ++ QueryEscape locationID ++ "&range=" ++
        QueryEscape (if timerange = "" then "-1h" else timerange) := by
  rw [encode_archivalParams]
  simp only [← String.append_assoc]
  rfl

/-- C10 as stated fails: for a session whose base URL ends in a line feed,
`http.NewRequest` rejects the URL (it holds a control character), the process
ends in `log.Fatal`, and `GetSystemStorage` has issued no request. -/
theorem accessor_no_request_counterexample :
    (GetSystemStorage (ctlRejectingTransport ⟨200, "\x7b\x7d"⟩) newlineSession).requests = [] ∧
    (GetSystemStorage (ctlRejectingTransport ⟨200, "\x7b\x7d"⟩) newlineSession).outcome
      = .fatal ∧
    ¬ sendsOneGet (GetSystemStorage (ctlRejectingTransport ⟨200, "\x7b\x7d"⟩) newlineSession)
      (newlineSession.url ++ "/api/internal/stats/system_storage" ++ "?") := by
  refine ⟨by decide, by decide, ?_⟩
  rintro ⟨req, h, -⟩
  have h0 : (GetSystemStorage (ctlRejectingTransport ⟨200, "\x7b\x7d"⟩)
      newlineSession).requests = [] := by decide
  rw [h0] at h
  exact absurd h (by simp)

/-- C10, amended: each accessor calls `makeRequest` exactly once (no retry),
with method GET, its own path and its parameters, and never hands more than
one request to the client. When `http.NewRequest` accepts the URL it hands
exactly one request, with method GET and the URL made of the base URL, the
path, `?` and the encoded query: a bare `?` for the six accessors without
parameters, `?range=-10min` for `GetPhysicalIngest`,
`?data_location_id=<escaped locationID>&range=<escaped range>` for
`GetArchivalBandwith` (a space is escaped as `+`, `/` as `%2F`, `&` as
`%26`). When `http.NewRequest` rejects the URL, no request is issued and the
process ends. The eight paths are pairwise distinct. -/
theorem accessors_one_call {ResultList VmStorage DataLocationUsage TimeStat : Type}
    (uVm : Unmarshaler (VmStorageList ResultList VmStorage))
    (uDl : Unmarshaler (DataLocationUsageList ResultList DataLocationUsage))
    (uTs : Unmarshaler (List TimeStat))
    (env : Transport) (r : Rubrik) (locationID timerange : String) :
    oneCall env (GetSystemStorage env r) "/api/internal/stats/system_storage" {}
      (r.url ++ "/api/internal/stats/system_storage" ++ "?") ∧
    oneCall env (GetPerVMStorage uVm env r) "/api/internal/stats/per_vm_storage" {}
      (r.url ++ "/api/internal/stats/per_vm_storage" ++ "?") ∧
    oneCall env (GetStreamCount env r) "/api/internal/stats/streams/count" {}
      (r.url ++ "/api/internal/stats/streams/count" ++ "?") ∧
    oneCall env (GetDataLocationUsage uDl env r) "/api/internal/stats/data_location/usage" {}
      (r.url ++ "/api/internal/stats/data_location/usage" ++ "?") ∧
    oneCall env (GetPhysicalIngest uTs env r) "/api/internal/stats/physical_ingest/time_series"
      { params := [("range", ["-10min"])] }
      (r.url ++ "/api/internal/stats/physical_ingest/time_series" ++ "?range=-10min") ∧
    oneCall env (GetArchivalBandwith uTs env r locationID timerange)
      "/api/internal/stats/archival/bandwidth/time_series"
      { params := [("data_location_id", [locationID]),
          ("range", [if timerange = "" then "-1h" else timerange])] }
      (r.url ++ "/api/internal/stats/archival/bandwidth/time_series" ++
        ("?data_location_id=" ++ QueryEscape locationID ++ "&range=" ++
          QueryEscape (if timerange = "" then "-1h" else timerange))) ∧
    oneCall env (GetRunawayRemaining env r) "/api/internal/stats/runway_remaining" {}
      (r.url ++ "/api/internal/stats/runway_remaining" ++ "?") ∧
    oneCall env (GetAverageStorageGrowthPerDay env r)
      "/api/internal/stats/average_storage_growth_per_day" {}
      (r.url ++ "/api/internal/stats/average_storage_growth_per_day" ++ "?") ∧
    QueryEscape "loc 1/a&b" = "loc+1%2Fa%26b" ∧
    accessorPaths.Nodup := by
  refine ⟨?_, ?_, ?_, ?_, ?_, ?_, ?_, ?_, by decide, by decide⟩
  · exact oneCall_intro env _ r _ {} "?" rfl rfl rfl
      (fun h => by simp only [GetSystemStorage, h])
  · exact oneCall_intro env _ r _ {} "?" rfl rfl rfl
      (fun h => by simp only [GetPerVMStorage, h])
  · exact oneCall_intro env _ r _ {} "?" rfl rfl rfl
      (fun h => by simp only [GetStreamCount, h])
  · exact oneCall_intro env _ r _ {} "?" rfl rfl rfl
      (fun h => by simp only [GetDataLocationUsage, h])
  · exact oneCall_intro env _ r _ { params := [("range", ["-10min"])] } "?range=-10min"
      (by decide) rfl rfl (fun h => by simp only [GetPhysicalIngest, h])
  · exact oneCall_intro env _ r _ (archivalParams locationID timerange) _
      (archival_query locationID timerange) rfl rfl (fun h => by
        simp only [GetArchivalBandwith]
        rw [show ({ params := [("data_location_id", [locationID]),
          ("range", [if timerange = "" then "-1h" else timerange])] } : RequestParams)
          = archivalParams locationID timerange from rfl, h])
  · exact oneCall_intro env _ r _ {} "?" rfl rfl rfl
      (fun h => by simp only [GetRunawayRemaining, h])
  · exact oneCall_intro env _ r _ {} "?" rfl rfl rfl
      (fun h => by simp only [GetAverageStorageGrowthPerDay, h])

/-- The requests of three accessors for the demo session, one of them with a
location that needs escaping, and the run that ends before any request for the
session whose base URL ends in a line feed. -/
theorem accessors_one_call_witness :
    sendsOneGet (GetSystemStorage (constTransport ⟨200, "\x7b\x7d"⟩) demoSession)
      "https://rubrik.example/api/internal/stats/system_storage?" ∧
    sendsOneGet (GetPhysicalIngest demoTs (constTransport ⟨200, "\x7b\x7d"⟩) demoSession)
      "https://rubrik.example/api/internal/stats/physical_ingest/time_series?range=-10min" ∧
    sendsOneGet (GetArchivalBandwith demoTs (constTransport ⟨500, ""⟩) demoSession
        "loc 1/a&b" "")
      ("https://rubrik.example/api/internal/stats/archival/bandwidth/time_series" ++
        "?data_location_id=loc+1%2Fa%26b&range=-1h") ∧
    ((GetStreamCount (ctlRejectingTransport ⟨200, "\x7b\x7d"⟩) newlineSession).requests = [] ∧
      (GetStreamCount (ctlRejectingTransport ⟨200, "\x7b\x7d"⟩) newlineSession).outcome
        = .fatal) :=
  ⟨(accessors_one_call demoVm demoDl demoTs (constTransport ⟨200, "\x7b\x7d"⟩)
      demoSession "loc1" "").1.2.2.1 rfl,
   (accessors_one_call demoVm demoDl demoTs (constTransport ⟨200, "\x7b\x7d"⟩)
      demoSession "loc1" "").2.2.2.2.1.2.2.1 rfl,
   (accessors_one_call demoVm demoDl demoTs (constTransport ⟨500, ""⟩)
      demoSession "loc 1/a&b" "").2.2.2.2.2.1.2.2.1 rfl,
   (accessors_one_call demoVm demoDl demoTs (ctlRejectingTransport ⟨200, "\x7b\x7d"⟩)
      newlineSession "loc1" "").2.2.1.2.2.2 (by decide)⟩

/-! ### Bodies that do not scan -/

theorem checkValid_of_readValue_none {data : List Char} (h : readValue data = none) :
    checkValid data = none := by
  simp [checkValid, h]

theorem Decode_of_readValue_none {α : Type} (u : Unmarshaler α) (body : String) (d : α)
    (h : readValue body.data = none) : Decode u body d = (d, some .scan) := by
  simp [Decode, h]

theorem Unmarshal_of_checkValid_none {α : Type} (u : Unmarshaler α) (data : String) (d : α)
    (h : checkValid data.data = none) : Unmarshal u data d = (d, some .scan) := by
  simp [Unmarshal, h]

/-- C3 as stated fails: the body `{"total": 5} trailing` is not valid JSON,
yet on a 200 answer `GetSystemStorage` returns the record with `Total = 5`,
because the decoder reads the first value of the stream and does not look at
what follows. -/
theorem invalid_body_decoded_counterexample :
    checkValid bodyObjectThenText.data = none ∧
    (GetSystemStorage (constTransport ⟨200, bodyObjectThenText⟩) demoSession).outcome
      = .returned ⟨5, 0, 0, 0, 0, 0⟩ ∧
    (GetSystemStorage (constTransport ⟨200, bodyObjectThenText⟩) demoSession).outcome
      ≠ .returned ⟨0, 0, 0, 0, 0, 0⟩ := by
  refine ⟨rfl, by decide, by decide⟩

/-- C3, amended: on a 2xx answer whose body does not start with a complete
JSON value (the decoder's scan of the first value fails, as for an empty body,
a truncated one or an HTML page), each of the seven accessors that decode the
stream returns the zero value of its result type; `GetStreamCount`, which
unmarshals the whole body, returns 0 on every 2xx body that is not one valid
JSON value. -/
theorem accessors_unscannable_zero {ResultList VmStorage DataLocationUsage TimeStat : Type}
    (uVm : Unmarshaler (VmStorageList ResultList VmStorage))
    (uDl : Unmarshaler (DataLocationUsageList ResultList DataLocationUsage))
    (uTs : Unmarshaler (List TimeStat))
    (env : Transport) (r : Rubrik) (locationID timerange : String) (resp : Response)
    (hs : 200 ≤ resp.StatusCode ∧ resp.StatusCode ≤ 299) :
    (readValue resp.Body.data = none →
      (answers env r "GET" "/api/internal/stats/system_storage" {} resp →
        (GetSystemStorage env r).outcome = .returned ⟨0, 0, 0, 0, 0, 0⟩) ∧
      (answers env r "GET" "/api/internal/stats/per_vm_storage" {} resp →
        ∃ l, (GetPerVMStorage uVm env r).outcome = .returned l ∧ l.length = 0) ∧
      (answers env r "GET" "/api/internal/stats/data_location/usage" {} resp →
        ∃ l, (GetDataLocationUsage uDl env r).outcome = .returned l ∧ l.length = 0) ∧
      (answers env r "GET" "/api/internal/stats/physical_ingest/time_series"
          { params := [("range", ["-10min"])] } resp →
        ∃ l, (GetPhysicalIngest uTs env r).outcome = .returned l ∧ l.length = 0) ∧
      (answers env r "GET" "/api/internal/stats/archival/bandwidth/time_series"
          (archivalParams locationID timerange) resp →
        ∃ l, (GetArchivalBandwith uTs env r locationID timerange).outcome = .returned l ∧
          l.length = 0) ∧
      (answers env r "GET" "/api/internal/stats/runway_remaining" {} resp →
        (GetRunawayRemaining env r).outcome = .returned 0) ∧
      (answers env r "GET" "/api/internal/stats/average_storage_growth_per_day" {} resp →
        (GetAverageStorageGrowthPerDay env r).outcome = .returned 0)) ∧
    (checkValid resp.Body.data = none →
      answers env r "GET" "/api/internal/stats/streams/count" {} resp →
        (GetStreamCount env r).outcome = .returned 0) := by
  refine ⟨fun hb => ⟨fun h => ?_, fun h => ⟨[], ?_, rfl⟩, fun h => ⟨[], ?_, rfl⟩,
    fun h => ⟨[], ?_, rfl⟩, fun h => ⟨[], ?_, rfl⟩, fun h => ?_, fun h => ?_⟩, fun hb h => ?_⟩
  · rw [GetSystemStorage_2xx h hs, Decode_of_readValue_none _ _ _ hb]
  · rw [GetPerVMStorage_2xx uVm h hs, Decode_of_readValue_none _ _ _ hb]
  · rw [GetDataLocationUsage_2xx uDl h hs, Decode_of_readValue_none _ _ _ hb]
  · rw [GetPhysicalIngest_2xx uTs h hs, Decode_of_readValue_none _ _ _ hb]
  · rw [GetArchivalBandwith_2xx uTs locationID timerange h hs, Decode_of_readValue_none _ _ _ hb]
  · rw [GetRunawayRemaining_2xx h hs, Decode_of_readValue_none _ _ _ hb]
    rfl
  · rw [GetAverageStorageGrowthPerDay_2xx h hs, Decode_of_readValue_none _ _ _ hb]
    rfl
  · rw [GetStreamCount_2xx h hs, Unmarshal_of_checkValid_none _ _ _ hb]
    rfl

/-- An empty body, a truncated body and an HTML page, each on a 200 answer. -/
theorem accessors_unscannable_zero_witness :
    (GetSystemStorage (constTransport ⟨200, ""⟩) demoSession).outcome
      = .returned ⟨0, 0, 0, 0, 0, 0⟩ ∧
    (GetSystemStorage (constTransport ⟨200, bodyTruncated⟩) demoSession).outcome
      = .returned ⟨0, 0, 0, 0, 0, 0⟩ ∧
    (GetRunawayRemaining (constTransport ⟨200, bodyHtml⟩) demoSession).outcome = .returned 0 ∧
    (GetStreamCount (constTransport ⟨200, bodyObjectThenText⟩) demoSession).outcome
      = .returned 0 :=
  ⟨(accessors_unscannable_zero demoVm demoDl demoTs (constTransport ⟨200, ""⟩) demoSession
      "loc1" "" ⟨200, ""⟩ (by decide)).1 rfl |>.1 (answers_constTransport _ _ _ _ _),
   (accessors_unscannable_zero demoVm demoDl demoTs (constTransport ⟨200, bodyTruncated⟩)
      demoSession "loc1" "" ⟨200, bodyTruncated⟩ (by decide)).1 rfl |>.1
      (answers_constTransport _ _ _ _ _),
   (accessors_unscannable_zero demoVm demoDl demoTs (constTransport ⟨200, bodyHtml⟩)
      demoSession "loc1" "" ⟨200, bodyHtml⟩ (by decide)).1 rfl |>.2.2.2.2.2.1
      (answers_constTransport _ _ _ _ _),
   (accessors_unscannable_zero demoVm demoDl demoTs (constTransport ⟨200, bodyObjectThenText⟩)
      demoSession "loc1" "" ⟨200, bodyObjectThenText⟩ (by decide)).2 rfl
      (answers_constTransport _ _ _ _ _)⟩

/-! ### Decode errors -/

theorem digitChar_isDigit (d : Nat) (h : d < 10) :
    isDigit (Nat.digitChar d) = true ∧ (Nat.digitChar d).toNat - 48 = d ∧
      (Nat.digitChar d = '0' ↔ d = 0) := by
  interval_cases d <;> decide

theorem toDigitsCore_append (n : Nat) :
    ∀ fuel, n < fuel → ∀ ds, Nat.toDigitsCore 10 fuel n ds = Nat.toDigits 10 n ++ ds := by
  induction n using Nat.strong_induction_on with
  | _ n ih =>
    intro fuel hf ds
    obtain ⟨f, rfl⟩ : ∃ f, fuel = f + 1 := ⟨fuel - 1, by omega⟩
    unfold Nat.toDigits
    simp only [Nat.toDigitsCore]
    by_cases h0 : n / 10 = 0
    · simp [h0]
    · simp only [h0, if_false]
      have hlt : n / 10 < n := Nat.div_lt_self (by omega) (by decide)
      rw [ih (n / 10) hlt f (by omega), ih (n / 10) hlt n hlt]
      simp

theorem toDigits_small (n : Nat) (h : n < 10) : Nat.toDigits 10 n = [Nat.digitChar n] := by
  unfold Nat.toDigits
  simp only [Nat.toDigitsCore]
  have h0 : n / 10 = 0 := Nat.div_eq_of_lt h
  simp [h0, Nat.mod_eq_of_lt h]

theorem toDigits_step (n : Nat) (h : 10 ≤ n) :
    Nat.toDigits 10 n = Nat.toDigits 10 (n / 10) ++ [Nat.digitChar (n % 10)] := by
  have h0 : n / 10 ≠ 0 := by
    have : 1 ≤ n / 10 := (Nat.le_div_iff_mul_le (by decide)).2 (by omega)
    omega
  have hlt : n / 10 < n := Nat.div_lt_self (by omega) (by decide)
  conv_lhs => unfold Nat.toDigits
  simp only [Nat.toDigitsCore, h0, if_false]
  exact toDigitsCore_append (n / 10) n hlt _

theorem digitsValue_append (xs : List Char) (c : Char) :
    digitsValue (xs ++ [c]) = digitsValue xs * 10 + (c.toNat - 48) := by
  simp [digitsValue, List.foldl_append]

theorem toDigits_spec (n : Nat) :
    (∀ c ∈ Nat.toDigits 10 n, isDigit c = true) ∧
    digitsValue (Nat.toDigits 10 n) = n ∧
    ∃ c rest, Nat.toDigits 10 n = c :: rest ∧ (c = '0' → n = 0 ∧ rest = []) := by
  induction n using Nat.strong_induction_on with
  | _ n ih =>
    by_cases h : n < 10
    · rw [toDigits_small n h]
      obtain ⟨h1, h2, h3⟩ := digitChar_isDigit n h
      refine ⟨by simpa using h1, ?_, _, _, rfl, fun hc => ⟨h3.1 hc, rfl⟩⟩
      simp [digitsValue, h2]
    · have h10 : 10 ≤ n := by omega
      have hlt : n / 10 < n := Nat.div_lt_self (by omega) (by decide)
      obtain ⟨a1, a2, c, rest, a3, a4⟩ := ih (n / 10) hlt
      obtain ⟨h1, h2, -⟩ := digitChar_isDigit (n % 10) (Nat.mod_lt _ (by decide))
      rw [toDigits_step n h10]
      refine ⟨?_, ?_, c, rest ++ [Nat.digitChar (n % 10)], by rw [a3]; rfl, fun hc => ?_⟩
      · intro x hx
        rcases List.mem_append.1 hx with hx | hx
        · exact a1 x hx
        · rw [List.mem_singleton.1 hx]
          exact h1
      · rw [digitsValue_append, a2, h2]
        omega
      · have := (a4 hc).1
        have : 1 ≤ n / 10 := (Nat.le_div_iff_mul_le (by decide)).2 (by omega)
        omega

theorem decimal_ofNat (m : Nat) : decimal (Int.ofNat m) = Nat.toDigits 10 m := rfl

theorem decimal_negSucc (m : Nat) :
    decimal (Int.negSucc m) = '-' :: Nat.toDigits 10 (m + 1) := rfl

/-! ### Scanning a decimal number -/

theorem span_digits (ds rest : List Char) (hd : ∀ c ∈ ds, isDigit c = true)
    (hr : ∀ c ∈ rest.head?, isDigit c = false) :
    (ds ++ rest).span isDigit = (ds, rest) := by
  rw [List.span_eq_take_drop, List.takeWhile_append_of_pos hd, List.dropWhile_append_of_pos hd]
  cases rest with
  | nil => simp
  | cons c r =>
    have hc : isDigit c = false := hr c (by simp)
    simp [List.takeWhile, List.dropWhile, hc]

theorem scanFrac_end (rest : List Char) (h : endsNumber rest) : scanFrac rest = some ([], rest) := by
  cases rest with
  | nil => rfl
  | cons c r =>
    have hc := (h c (by simp)).2.1
    simp [scanFrac, hc]

theorem scanExp_end (rest : List Char) (h : endsNumber rest) : scanExp rest = some ([], rest) := by
  cases rest with
  | nil => rfl
  | cons c r =>
    obtain ⟨-, -, h1, h2⟩ := h c (by simp)
    simp [scanExp, h1, h2]

theorem scanIntPart_digits (c : Char) (ds rest : List Char)
    (hd : ∀ x ∈ c :: ds, isDigit x = true) (h0 : c = '0' → ds = [])
    (hr : endsNumber rest) :
    scanIntPart (c :: ds ++ rest) = some (c :: ds, rest) := by
  have hspan := span_digits ds rest (fun x hx => hd x (List.mem_cons_of_mem _ hx))
    (fun x hx => (hr x hx).1)
  have hc : isDigit c = true := hd c (List.mem_cons_self _ _)
  by_cases hz : c = '0'
  · simp [scanIntPart, hz, h0 hz]
  · simp only [scanIntPart, List.cons_append, hz, if_false, hc, if_true, hspan]

theorem scanNumber_digits (c : Char) (ds rest : List Char)
    (hd : ∀ x ∈ c :: ds, isDigit x = true) (h0 : c = '0' → ds = [])
    (hr : endsNumber rest) :
    scanNumber (c :: ds ++ rest) = some (c :: ds, rest) ∧
    scanNumber ('-' :: c :: ds ++ rest) = some ('-' :: c :: ds, rest) := by
  have hc : isDigit c = true := hd c (List.mem_cons_self _ _)
  have hne : c ≠ '-' := by
    rintro rfl
    simp [isDigit] at hc
  have hi := scanIntPart_digits c ds rest hd h0 hr
  constructor
  · simp only [scanNumber, List.cons_append, hne, if_false, List.length_nil, List.drop_zero]
    rw [← List.cons_append, hi]
    simp [scanFrac_end rest hr, scanExp_end rest hr]
  · simp only [scanNumber, List.cons_append, if_true, List.length_singleton, List.drop_succ_cons,
      List.drop_zero]
    rw [← List.cons_append, hi]
    simp [scanFrac_end rest hr, scanExp_end rest hr]

theorem decimal_cases (n : Int) :
    ∃ c ds, (∀ x ∈ c :: ds, isDigit x = true) ∧ (c = '0' → ds = []) ∧
      digitsValue (c :: ds) = n.natAbs ∧
      ((0 ≤ n ∧ decimal n = c :: ds) ∨ (n < 0 ∧ decimal n = '-' :: c :: ds)) := by
  cases n with
  | ofNat m =>
    obtain ⟨h1, h2, c, ds, h3, h4⟩ := toDigits_spec m
    refine ⟨c, ds, by rw [← h3]; exact h1, fun hc => (h4 hc).2, by rw [← h3, h2]; rfl,
      Or.inl ⟨Int.ofNat_nonneg m, by rw [decimal_ofNat, h3]⟩⟩
  | negSucc m =>
    obtain ⟨h1, h2, c, ds, h3, h4⟩ := toDigits_spec (m + 1)
    refine ⟨c, ds, by rw [← h3]; exact h1, fun hc => (h4 hc).2, by rw [← h3, h2]; rfl,
      Or.inr ⟨Int.negSucc_lt_zero m, by rw [decimal_negSucc, h3]⟩⟩

theorem scanNumber_decimal (n : Int) (rest : List Char) (hr : endsNumber rest) :
    scanNumber (decimal n ++ rest) = some (decimal n, rest) := by
  obtain ⟨c, ds, hd, h0, -, h | h⟩ := decimal_cases n
  · rw [h.2]
    exact (scanNumber_digits c ds rest hd h0 hr).1
  · rw [h.2]
    exact (scanNumber_digits c ds rest hd h0 hr).2

theorem ParseInt_decimal (n : Int) (hn : fitsInt n) : ParseInt (decimal n) = some n := by
  obtain ⟨c, ds, hd, -, hv, h | h⟩ := decimal_cases n
  · have hc : isDigit c = true := hd c (List.mem_cons_self _ _)
    have hne : c ≠ '-' := by
      rintro rfl
      simp [isDigit] at hc
    have hnp : c ≠ '+' := by
      rintro rfl
      simp [isDigit] at hc
    have hall : (c :: ds).all isDigit = true := List.all_eq_true.2 hd
    have hv2 : ((digitsValue (c :: ds) : Nat) : Int) = n := by
      rw [hv]
      exact Int.natAbs_of_nonneg h.1
    have hlt : digitsValue (c :: ds) < 2 ^ 63 := by
      have := hn.2
      omega
    rw [h.2]
    simp [ParseInt, hne, hnp, hall, hv2]
    omega
  · have hall : ds.all isDigit = true := by
      have := List.all_eq_true.2 hd
      simp only [List.all_cons, Bool.and_eq_true] at this
      exact this.2
    have hc : isDigit c = true := hd c (List.mem_cons_self _ _)
    have hv2 : -((digitsValue (c :: ds) : Nat) : Int) = n := by
      rw [hv]
      have := h.1
      omega
    have hle : digitsValue (c :: ds) ≤ 2 ^ 63 := by
      have := hn.1
      omega
    rw [h.2]
    simp [ParseInt, hall, hc, hv2]
    omega

/-! ### Scanning a rendered object -/

theorem skipSpace_cons_of_not_space (c : Char) (cs : List Char) (h : isSpace c = false) :
    skipSpace (c :: cs) = c :: cs := by
  simp [skipSpace, h]

theorem isSpace_of_digit_or_minus (c : Char) (h : c = '-' ∨ isDigit c = true) :
    isSpace c = false := by
  rcases h with rfl | h
  · decide
  · by_contra hs
    have hs2 : isSpace c = true := by simpa using hs
    simp only [isSpace, Bool.or_eq_true, decide_eq_true_eq] at hs2
    rcases hs2 with ((rfl | rfl) | rfl) | rfl <;> simp [isDigit] at h

theorem decimal_head (n : Int) :
    ∃ c cs, decimal n = c :: cs ∧ (c = '-' ∨ isDigit c = true) := by
  obtain ⟨c, ds, hd, -, -, h | h⟩ := decimal_cases n
  · exact ⟨c, ds, h.2, Or.inr (hd c (List.mem_cons_self _ _))⟩
  · exact ⟨'-', c :: ds, h.2, Or.inl rfl⟩

theorem scanString_plain (k : List Char) (hk : ∀ c ∈ k, c ≠ '"' ∧ c ≠ '\\' ∧ 32 ≤ c.toNat)
    (rest : List Char) :
    scanString (k ++ '"' :: rest) = some (k.map StrUnit.lit, rest) := by
  induction k with
  | nil =>
    rw [List.nil_append, scanString.eq_def]
    simp
  | cons c k ih =>
    obtain ⟨h1, h2, h3⟩ := hk c (List.mem_cons_self _ _)
    have h4 : ¬ c.toNat < 32 := by omega
    rw [List.cons_append, scanString.eq_def]
    simp only [h1, h2, if_false, h4]
    rw [ih (fun x hx => hk x (List.mem_cons_of_mem _ hx))]
    rfl

theorem unquoteUnits_lit (k : List Char) : unquoteUnits (k.map StrUnit.lit) = k := by
  induction k with
  | nil => rfl
  | cons c k ih => simp [unquoteUnits, ih]

theorem scanValue_number (fuel depth : Nat) (c : Char) (cs : List Char)
    (hc : c = '-' ∨ isDigit c = true) :
    scanValue (fuel + 1) depth (c :: cs) =
      match scanNumber (c :: cs) with
      | none => none
      | some (lit, r) => some (.number lit, r) := by
  have h1 : c ≠ '{' := by
    rcases hc with rfl | h
    · decide
    · rintro rfl
      simp [isDigit] at h
  have h2 : c ≠ '[' := by
    rcases hc with rfl | h
    · decide
    · rintro rfl
      simp [isDigit] at h
  have h3 : c ≠ '"' := by
    rcases hc with rfl | h
    · decide
    · rintro rfl
      simp [isDigit] at h
  have h4 : (decide (c = '-') || isDigit c) = true := by
    rcases hc with rfl | h
    · rfl
    · simp [h]
  rw [scanValue]
  simp only [h1, h2, h3, if_false, h4, if_true]

theorem scanValue_decimal (fuel depth : Nat) (n : Int) (rest : List Char)
    (hr : endsNumber rest) :
    scanValue (fuel + 1) depth (decimal n ++ rest) = some (.number (decimal n), rest) := by
  obtain ⟨c, cs, hcs, hc⟩ := decimal_head n
  have hs := scanNumber_decimal n rest hr
  rw [hcs] at hs ⊢
  rw [List.cons_append] at hs ⊢
  rw [scanValue_number fuel depth c _ hc, hs]

theorem skipSpace_space_decimal (n : Int) (rest : List Char) :
    skipSpace (' ' :: (decimal n ++ rest)) = decimal n ++ rest := by
  obtain ⟨c, cs, hcs, hc⟩ := decimal_head n
  rw [hcs, List.cons_append]
  have h := isSpace_of_digit_or_minus c hc
  rw [skipSpace]
  simp only [show isSpace ' ' = true from rfl, if_true]
  exact skipSpace_cons_of_not_space c _ h

theorem scanMembers_member (fuel depth : Nat) (k : String) (n : Int) (tail : List Char)
    (hk : plainKey k) (ht : endsNumber tail) :
    scanMembers (fuel + 2) depth (renderMember (k, n) ++ tail) =
      match skipSpace tail with
      | [] => none
      | sep :: r4 =>
        if sep = ',' then
          match scanMembers (fuel + 1) depth (skipSpace r4) with
          | none => none
          | some (ms, r) => some ((k, .number (decimal n)) :: ms, r)
        else if sep = '}' then some ([(k, .number (decimal n))], r4)
        else none := by
  have htext : renderMember (k, n) ++ tail =
      '"' :: (k.data ++ '"' :: (':' :: ' ' :: (decimal n ++ tail))) := by
    simp [renderMember]
  rw [htext, scanMembers]
  simp only [if_true, scanString_plain k.data hk]
  rw [skipSpace_cons_of_not_space ':' _ (by decide)]
  simp only [if_true, skipSpace_space_decimal, scanValue_decimal fuel depth n tail ht,
    unquoteUnits_lit]

theorem endsNumber_cons (c : Char) (cs : List Char)
    (h : isDigit c = false ∧ c ≠ '.' ∧ c ≠ 'e' ∧ c ≠ 'E') : endsNumber (c :: cs) := by
  intro x hx
  simp only [List.head?_cons, Option.mem_def, Option.some.injEq] at hx
  rw [← hx]
  exact h

theorem renderMember_head (m : String × Int) :
    ∃ cs, renderMember m = '"' :: cs := ⟨_, rfl⟩

theorem renderMembers_head (m : String × Int) (ms : List (String × Int)) :
    ∃ cs, renderMembers (m :: ms) = '"' :: cs := by
  cases ms with
  | nil => exact ⟨_, rfl⟩
  | cons m2 tl => exact ⟨_, rfl⟩

theorem scanMembers_render (depth : Nat) (ms : List (String × Int)) :
    ms ≠ [] → (∀ m ∈ ms, plainKey m.1) → ∀ (fuel : Nat) (rest : List Char),
      ms.length + 1 ≤ fuel →
      scanMembers fuel depth (renderMembers ms ++ '}' :: rest) =
        some (ms.map memberValue, rest) := by
  induction ms with
  | nil => intro h; exact absurd rfl h
  | cons m tl ih =>
    intro _ hk fuel rest hf
    obtain ⟨f, rfl⟩ : ∃ f, fuel = f + 2 := ⟨fuel - 2, by simp at hf; omega⟩
    have hkm : plainKey m.1 := hk m (List.mem_cons_self _ _)
    cases tl with
    | nil =>
      have hstep := scanMembers_member f depth m.1 m.2 ('}' :: rest) hkm
        (endsNumber_cons _ _ (by decide))
      rw [skipSpace_cons_of_not_space '}' _ (by decide)] at hstep
      simp only [renderMembers, List.map_cons, List.map_nil, memberValue]
      rw [hstep]
      simp
    | cons m2 tl2 =>
      have hstep := scanMembers_member f depth m.1 m.2
        (',' :: ' ' :: (renderMembers (m2 :: tl2) ++ '}' :: rest)) hkm
        (endsNumber_cons _ _ (by decide))
      rw [skipSpace_cons_of_not_space ',' _ (by decide)] at hstep
      obtain ⟨cs, hcs⟩ := renderMembers_head m2 tl2
      have hskip : skipSpace (' ' :: (renderMembers (m2 :: tl2) ++ '}' :: rest)) =
          renderMembers (m2 :: tl2) ++ '}' :: rest := by
        rw [skipSpace]
        simp only [show isSpace ' ' = true from rfl, if_true]
        rw [hcs, List.cons_append]
        exact skipSpace_cons_of_not_space '"' _ (by decide)
      have hih := ih (by simp) (fun x hx => hk x (List.mem_cons_of_mem _ hx)) (f + 1) rest
        (by simp at hf ⊢; omega)
      simp only [if_true, hskip, hih] at hstep
      have htext : renderMembers (m :: m2 :: tl2) ++ '}' :: rest =
          renderMember (m.1, m.2) ++
            (',' :: ' ' :: (renderMembers (m2 :: tl2) ++ '}' :: rest)) := by
        simp [renderMembers]
      rw [htext, hstep]
      simp [memberValue]

theorem renderMembers_length (ms : List (String × Int)) :
    ms.length ≤ (renderMembers ms).length := by
  induction ms with
  | nil => simp [renderMembers]
  | cons m tl ih =>
    cases tl with
    | nil => simp [renderMembers, renderMember]
    | cons m2 tl2 =>
      simp only [renderMembers, List.length_append, List.length_cons] at ih ⊢
      omega

theorem readValue_renderObject (ms : List (String × Int)) (hne : ms ≠ [])
    (hk : ∀ m ∈ ms, plainKey m.1) :
    readValue (renderObject ms).data = some (.object (ms.map memberValue), []) := by
  obtain ⟨m, tl, rfl⟩ := List.exists_cons_of_ne_nil hne
  obtain ⟨cs, hcs⟩ := renderMembers_head m tl
  have hlen := renderMembers_length (m :: tl)
  have hscan := scanMembers_render 1 (m :: tl) hne hk
    ((renderMembers (m :: tl) ++ ['}']).length + 1) [] (by
      simp only [List.length_append, List.length_cons, List.length_nil] at hlen ⊢
      omega)
  unfold readValue
  simp only [renderObject]
  rw [skipSpace_cons_of_not_space '{' _ (by decide), List.length_cons, scanValue]
  simp only [if_true]
  have hd : ¬ (0 + 1 > maxNestingDepth) := by decide
  simp only [hd, if_false]
  rw [hcs] at hscan ⊢
  rw [List.cons_append, skipSpace_cons_of_not_space '"' _ (by decide)]
  simp only [show ('"' = '}') = False from by decide, if_false]
  rw [← List.cons_append, hscan]

theorem checkValid_renderObject (ms : List (String × Int)) (hne : ms ≠ [])
    (hk : ∀ m ∈ ms, plainKey m.1) :
    checkValid (renderObject ms).data = some (.object (ms.map memberValue)) := by
  simp [checkValid, readValue_renderObject ms hne hk, skipSpace]

/-! ### Storing the scanned members -/

theorem storeInt_decimal (n : Int) (hn : fitsInt n) (cur : Int) :
    storeInt (.number (decimal n)) cur = (n, false) := by
  simp [storeInt, ParseInt_decimal n hn]

theorem systemStorageField_name (f : SystemStorageField) :
    systemStorageField f.name = some f := by
  cases f <;> rfl

theorem SystemStorageField.name_injective (f g : SystemStorageField) (h : f.name = g.name) :
    f = g := by
  cases f <;> cases g <;> first | rfl | (exact absurd h (by decide))

theorem SystemStorageField.get_set (f g : SystemStorageField) (d : SystemStorage) (n : Int) :
    g.get (f.set d n) = if g = f then n else g.get d := by
  cases f <;> cases g <;> rfl

theorem SystemStorage.eq_of_get (d target : SystemStorage)
    (h : ∀ g : SystemStorageField, g.get d = g.get target) : d = target := by
  have h1 := h .Total
  have h2 := h .Used
  have h3 := h .Available
  have h4 := h .Snapshot
  have h5 := h .LiveMount
  have h6 := h .Miscellaneous
  cases d
  cases target
  simp only [SystemStorageField.get] at h1 h2 h3 h4 h5 h6
  simp [h1, h2, h3, h4, h5, h6]

theorem foldl_storeSystemStorage (target : SystemStorage)
    (ht : ∀ f : SystemStorageField, fitsInt (f.get target)) (ms : List (String × JValue))
    (hms : ∀ m ∈ ms, ∃ f : SystemStorageField, m = memberValue (f.name, f.get target)) :
    ∀ (d : SystemStorage) (e : Bool), ∃ d', ms.foldl storeSystemStorageMember (d, e) = (d', e) ∧
      ∀ g : SystemStorageField,
        (memberValue (g.name, g.get target) ∈ ms → g.get d' = g.get target) ∧
        (memberValue (g.name, g.get target) ∉ ms → g.get d' = g.get d) := by
  induction ms with
  | nil =>
    intro d e
    exact ⟨d, rfl, fun g => ⟨fun h => absurd h (List.not_mem_nil _), fun _ => rfl⟩⟩
  | cons m tl ih =>
    intro d e
    obtain ⟨f, rfl⟩ := hms m (List.mem_cons_self _ _)
    have hstep : storeSystemStorageMember (d, e) (memberValue (f.name, f.get target)) =
        (f.set d (f.get target), e) := by
      simp [storeSystemStorageMember, memberValue, systemStorageField_name,
        storeInt_decimal _ (ht f)]
    obtain ⟨d', hd', hg⟩ := ih (fun x hx => hms x (List.mem_cons_of_mem _ hx))
      (f.set d (f.get target)) e
    refine ⟨d', by rw [List.foldl_cons, hstep, hd'], fun g => ⟨fun hmem => ?_, fun hmem => ?_⟩⟩
    · by_cases htl : memberValue (g.name, g.get target) ∈ tl
      · exact (hg g).1 htl
      · rw [(hg g).2 htl, SystemStorageField.get_set]
        rcases List.mem_cons.1 hmem with heq | hin
        · have hname : g.name = f.name := congrArg Prod.fst heq
          have hgf := SystemStorageField.name_injective g f hname
          simp [hgf]
        · exact absurd hin htl
    · have htl : memberValue (g.name, g.get target) ∉ tl :=
        fun hin => hmem (List.mem_cons_of_mem _ hin)
      rw [(hg g).2 htl, SystemStorageField.get_set]
      have hne : g ≠ f := by
        rintro rfl
        exact hmem (List.mem_cons_self _ _)
      simp [hne]

theorem unmarshalSystemStorage_perm (target : SystemStorage)
    (ht : ∀ f : SystemStorageField, fitsInt (f.get target)) (ms : List (String × JValue))
    (hperm : ms.Perm
      (systemStorageFields.map (fun f => memberValue (f.name, f.get target)))) :
    unmarshalSystemStorage (.object ms) {} = (target, false) := by
  have hms : ∀ m ∈ ms, ∃ f : SystemStorageField, m = memberValue (f.name, f.get target) := by
    intro m hm
    obtain ⟨f, -, hf⟩ := List.mem_map.1 (hperm.mem_iff.1 hm)
    exact ⟨f, hf.symm⟩
  obtain ⟨d', hd', hg⟩ := foldl_storeSystemStorage target ht ms hms {} false
  have hall : ∀ g : SystemStorageField, g.get d' = g.get target := by
    intro g
    apply (hg g).1
    apply hperm.mem_iff.2
    apply List.mem_map.2
    exact ⟨g, by cases g <;> simp [systemStorageFields], rfl⟩
  simp only [unmarshalSystemStorage]
  rw [hd', SystemStorage.eq_of_get d' target hall]

theorem IntMap.index_setIndex_ne (m : IntMap) (k key : String) (n : Int) (h : k ≠ key) :
    (m.setIndex k n).index key = m.index key := by
  have hfind : ∀ l : IntMap,
      List.find? (fun e => decide (e.1 = key)) (List.filter (fun e => decide (e.1 ≠ k)) l) =
        List.find? (fun e => decide (e.1 = key)) l := by
    intro l
    induction l with
    | nil => rfl
    | cons x xs ih =>
      by_cases hx : x.1 = k
      · have hxk : x.1 ≠ key := by rw [hx]; exact h
        rw [List.filter_cons_of_neg (by simpa using hx), List.find?_cons_of_neg _ (by simpa using hxk)]
        exact ih
      · rw [List.filter_cons_of_pos (by simpa using hx)]
        by_cases hxk : x.1 = key
        · rw [List.find?_cons_of_pos _ (by simpa using hxk),
            List.find?_cons_of_pos _ (by simpa using hxk)]
        · rw [List.find?_cons_of_neg _ (by simpa using hxk),
            List.find?_cons_of_neg _ (by simpa using hxk)]
          exact ih
  simp only [IntMap.index, IntMap.setIndex, List.find?, h, decide_False]
  rw [hfind]

theorem foldl_storeIntMap_absent (key : String) (ms : List (String × JValue))
    (hms : ∀ m ∈ ms, m.1 ≠ key) :
    ∀ acc : IntMap × Bool, (ms.foldl storeIntMapMember acc).1.index key = acc.1.index key := by
  induction ms with
  | nil => intro acc; rfl
  | cons m tl ih =>
    intro acc
    rw [List.foldl_cons, ih (fun x hx => hms x (List.mem_cons_of_mem _ hx))]
    exact IntMap.index_setIndex_ne _ _ _ _ (hms m (List.mem_cons_self _ _))

/-! ### GetStreamCount and GetSystemStorage on well-formed bodies -/

theorem count_body_eq (n : Int) :
    "\x7b\"count\": " ++ toString n ++ "\x7d" = renderObject [("count", n)] := by
  apply String.ext
  simp [renderObject, renderMembers, renderMember, decimal, String.data_append]

theorem plainKey_count : plainKey "count" := by
  unfold plainKey
  decide

theorem plainKey_field (f : SystemStorageField) : plainKey f.name := by
  unfold plainKey
  cases f <;> decide

/-- C7: on a 2xx answer, `GetStreamCount` returns `n` for the body
`{"count": n}`, for every integer `n` in the range of `int`, and returns 0 for
every body that is a JSON object without the key `count`. -/
theorem streamCount_parses (env : Transport) (r : Rubrik) (resp : Response)
    (hs : 200 ≤ resp.StatusCode ∧ resp.StatusCode ≤ 299)
    (h : answers env r "GET" "/api/internal/stats/streams/count" {} resp) :
    (∀ n : Int, fitsInt n → resp.Body = "\x7b\"count\": " ++ toString n ++ "\x7d" →
      (GetStreamCount env r).outcome = .returned n) ∧
    (∀ ms : List (String × JValue), checkValid resp.Body.data = some (.object ms) →
      (∀ m ∈ ms, m.1 ≠ "count") → (GetStreamCount env r).outcome = .returned 0) := by
  constructor
  · intro n hn hbody
    have hvalid : checkValid resp.Body.data = some (.object [memberValue ("count", n)]) := by
      rw [hbody, count_body_eq]
      exact checkValid_renderObject [("count", n)] (by simp)
        (fun m hm => by rw [List.mem_singleton.1 hm]; exact plainKey_count)
    rw [GetStreamCount_2xx h hs]
    simp [Unmarshal, hvalid, unmarshalIntMap, storeIntMapMember, memberValue,
      storeInt_decimal n hn, IntMap.setIndex, IntMap.index]
  · intro ms hvalid hms
    rw [GetStreamCount_2xx h hs]
    simp only [Unmarshal, hvalid, unmarshalIntMap]
    rw [foldl_storeIntMap_absent "count" ms hms]
    rfl

/-- The body `{"count": 42}` gives 42; the bodies `{}` and
`{"streams": 3, "Count": 9}` give 0. -/
theorem streamCount_parses_witness :
    (GetStreamCount (constTransport ⟨200, bodyCount42⟩) demoSession).outcome = .returned 42 ∧
    (GetStreamCount (constTransport ⟨200, "\x7b\x7d"⟩) demoSession).outcome = .returned 0 ∧
    (GetStreamCount (constTransport ⟨200, bodyNoCount⟩) demoSession).outcome = .returned 0 :=
  ⟨(streamCount_parses (constTransport ⟨200, bodyCount42⟩) demoSession ⟨200, bodyCount42⟩
      (by decide) (answers_constTransport _ _ _ _ _)).1 42 (by unfold fitsInt; decide)
      (by decide),
   (streamCount_parses (constTransport ⟨200, "\x7b\x7d"⟩) demoSession ⟨200, "\x7b\x7d"⟩
      (by decide) (answers_constTransport _ _ _ _ _)).2 [] rfl (by simp),
   (streamCount_parses (constTransport ⟨200, bodyNoCount⟩) demoSession ⟨200, bodyNoCount⟩
      (by decide) (answers_constTransport _ _ _ _ _)).2
      [("streams", .number ['3']), ("Count", .number ['9'])] rfl (by decide)⟩

/-- C8: on a 2xx answer, `GetSystemStorage` returns the record with
`Total = t`, `Used = u`, `Available = a`, `Snapshot = s`, `LiveMount = l`,
`Miscellaneous = m` for the object whose keys `total`, `used`, `available`,
`snapshot`, `liveMount`, `miscellaneous` hold these values, in any order of
the keys: for the text `{"k1": v1, ..., "k6": v6}`, and for every body whose
first value scans to such an object, whatever its white space. -/
theorem systemStorage_roundtrip (env : Transport) (r : Rubrik) (resp : Response)
    (t u a s l m : Int) (ht : fitsInt t) (hu : fitsInt u) (ha : fitsInt a) (hsn : fitsInt s)
    (hl : fitsInt l) (hm : fitsInt m)
    (hs : 200 ≤ resp.StatusCode ∧ resp.StatusCode ≤ 299)
    (h : answers env r "GET" "/api/internal/stats/system_storage" {} resp) :
    (∀ ms : List (String × Int),
      ms.Perm [("total", t), ("used", u), ("available", a), ("snapshot", s), ("liveMount", l),
        ("miscellaneous", m)] →
      resp.Body = renderObject ms →
      (GetSystemStorage env r).outcome = .returned ⟨t, u, a, s, l, m⟩) ∧
    (∀ (ms : List (String × JValue)) (rest : List Char),
      readValue resp.Body.data = some (.object ms, rest) →
      ms.Perm [memberValue ("total", t), memberValue ("used", u), memberValue ("available", a),
        memberValue ("snapshot", s), memberValue ("liveMount", l),
        memberValue ("miscellaneous", m)] →
      (GetSystemStorage env r).outcome = .returned ⟨t, u, a, s, l, m⟩) := by
  have hfit : ∀ f : SystemStorageField, fitsInt (f.get ⟨t, u, a, s, l, m⟩) := by
    intro f
    cases f <;> assumption
  have hsecond : ∀ (ms : List (String × JValue)) (rest : List Char),
      readValue resp.Body.data = some (.object ms, rest) →
      ms.Perm [memberValue ("total", t), memberValue ("used", u), memberValue ("available", a),
        memberValue ("snapshot", s), memberValue ("liveMount", l),
        memberValue ("miscellaneous", m)] →
      (GetSystemStorage env r).outcome = .returned ⟨t, u, a, s, l, m⟩ := by
    intro ms rest hread hperm
    rw [GetSystemStorage_2xx h hs]
    simp only [Decode, hread]
    rw [unmarshalSystemStorage_perm ⟨t, u, a, s, l, m⟩ hfit ms hperm]
  refine ⟨fun ms hperm hbody => ?_, hsecond⟩
  have hne : ms ≠ [] := by
    rintro rfl
    exact absurd hperm.length_eq (by simp)
  have hk : ∀ x ∈ ms, plainKey x.1 := by
    intro x hx
    have hx2 := hperm.mem_iff.1 hx
    simp only [List.mem_cons, List.mem_singleton, List.not_mem_nil, or_false] at hx2
    rcases hx2 with rfl | rfl | rfl | rfl | rfl | rfl
    · exact plainKey_field .Total
    · exact plainKey_field .Used
    · exact plainKey_field .Available
    · exact plainKey_field .Snapshot
    · exact plainKey_field .LiveMount
    · exact plainKey_field .Miscellaneous
  apply hsecond (ms.map memberValue) []
  · rw [hbody]
    exact readValue_renderObject ms hne hk
  · exact hperm.map memberValue

/-- The body `{"used": 2, "miscellaneous": 6, "total": 1, "snapshot": -4,
"liveMount": 5, "available": 3}` gives the record 1, 2, 3, -4, 5, 6. -/
theorem systemStorage_roundtrip_witness :
    (GetSystemStorage (constTransport ⟨200, bodyFullStorage⟩) demoSession).outcome
      = .returned ⟨1, 2, 3, -4, 5, 6⟩ :=
  (systemStorage_roundtrip (constTransport ⟨200, bodyFullStorage⟩) demoSession
    ⟨200, bodyFullStorage⟩ 1 2 3 (-4) 5 6 (by unfold fitsInt; decide) (by unfold fitsInt; decide)
    (by unfold fitsInt; decide) (by unfold fitsInt; decide) (by unfold fitsInt; decide)
    (by unfold fitsInt; decide) (by decide) (answers_constTransport _ _ _ _ _)).1
    [("used", 2), ("miscellaneous", 6), ("total", 1), ("snapshot", -4), ("liveMount", 5),
      ("available", 3)] (by decide) (by decide)

/-! ### The bound on nested calls is enough

`readValue` runs `scanValue` with one more unit of fuel than the text has
characters. Every nested call is on a strictly shorter text, so more fuel
never changes the result: a `none` of `readValue` is an error of the scanner,
never an exhausted bound. -/

theorem skipSpace_length (cs : List Char) : (skipSpace cs).length ≤ cs.length := by
  induction cs with
  | nil => simp [skipSpace]
  | cons c cs ih =>
    rw [skipSpace]
    split
    · simp only [List.length_cons]
      omega
    · exact Nat.le_refl _

theorem span_snd_length (p : Char → Bool) (l : List Char) : (l.span p).2.length ≤ l.length := by
  rw [List.span_eq_take_drop]
  exact (List.dropWhile_suffix p).length_le

theorem consUnit_some {x : StrUnit} {o : Option (List StrUnit × List Char)}
    {us : List StrUnit} {r : List Char} (h : consUnit x o = some (us, r)) :
    ∃ us', o = some (us', r) := by
  cases o with
  | none => simp [consUnit] at h
  | some p =>
    obtain ⟨a, b⟩ := p
    simp only [consUnit, Option.some.injEq, Prod.mk.injEq] at h
    exact ⟨a, by rw [h.2]⟩

theorem scanString_length : ∀ (n : Nat) (cs : List Char), cs.length ≤ n →
    ∀ us r, scanString cs = some (us, r) → r.length < cs.length := by
  intro n
  induction n with
  | zero =>
    intro cs hn us r h
    have : cs = [] := List.length_eq_zero.1 (by omega)
    subst this
    rw [scanString.eq_def] at h
    simp at h
  | succ n ih =>
    intro cs hn us r h
    rw [scanString.eq_def] at h
    cases cs with
    | nil => simp at h
    | cons c rest =>
      simp only at h
      simp only [List.length_cons] at hn ⊢
      split at h
      · simp only [Option.some.injEq, Prod.mk.injEq] at h
        rw [← h.2]
        omega
      · split at h
        · cases rest with
          | nil => simp at h
          | cons e rest2 =>
            simp only at h
            simp only [List.length_cons] at hn ⊢
            split at h
            · split at h
              · split at h
                · obtain ⟨us', hu⟩ := consUnit_some h
                  have := ih _ (by simp only [List.length_cons] at hn; omega) _ _ hu
                  simp only [List.length_cons]
                  omega
                · simp at h
              · simp at h
            · split at h
              · obtain ⟨us', hu⟩ := consUnit_some h
                have := ih _ (by omega) _ _ hu
                omega
              · simp at h
        · split at h
          · simp at h
          · obtain ⟨us', hu⟩ := consUnit_some h
            have := ih _ (by omega) _ _ hu
            omega

theorem scanIntPart_length (cs : List Char) (i r : List Char)
    (h : scanIntPart cs = some (i, r)) : r.length < cs.length := by
  cases cs with
  | nil => simp [scanIntPart] at h
  | cons c rest =>
    simp only [scanIntPart] at h
    split at h
    · simp only [Option.some.injEq, Prod.mk.injEq] at h
      rw [← h.2]
      simp
    · split at h
      · simp only [Option.some.injEq, Prod.mk.injEq] at h
        have := span_snd_length isDigit rest
        rw [← h.2]
        simp only [List.length_cons]
        omega
      · simp at h

theorem scanFrac_length (cs : List Char) (f r : List Char)
    (h : scanFrac cs = some (f, r)) : r.length ≤ cs.length := by
  cases cs with
  | nil =>
    simp only [scanFrac, Option.some.injEq, Prod.mk.injEq] at h
    rw [← h.2]
  | cons c rest =>
    simp only [scanFrac] at h
    split at h
    · split at h
      · simp at h
      · simp only [Option.some.injEq, Prod.mk.injEq] at h
        have := span_snd_length isDigit rest
        rw [← h.2]
        simp only [List.length_cons]
        omega
    · simp only [Option.some.injEq, Prod.mk.injEq] at h
      rw [← h.2]

theorem scanExpDigits_length (pre cs : List Char) (e r : List Char)
    (h : scanExpDigits pre cs = some (e, r)) : r.length ≤ cs.length := by
  simp only [scanExpDigits] at h
  split at h
  · simp at h
  · simp only [Option.some.injEq, Prod.mk.injEq] at h
    rw [← h.2]
    exact span_snd_length isDigit cs

theorem scanExp_length (cs : List Char) (e r : List Char)
    (h : scanExp cs = some (e, r)) : r.length ≤ cs.length := by
  cases cs with
  | nil =>
    simp only [scanExp, Option.some.injEq, Prod.mk.injEq] at h
    rw [← h.2]
  | cons c rest =>
    simp only [scanExp] at h
    split at h
    · cases rest with
      | nil => simp at h
      | cons s rest2 =>
        simp only at h
        split at h
        · have := scanExpDigits_length _ _ _ _ h
          simp only [List.length_cons]
          omega
        · have := scanExpDigits_length _ _ _ _ h
          simp only [List.length_cons] at this ⊢
          omega
    · simp only [Option.some.injEq, Prod.mk.injEq] at h
      rw [← h.2]

theorem scanNumber_length (cs : List Char) (lit r : List Char)
    (h : scanNumber cs = some (lit, r)) : r.length < cs.length := by
  simp only [scanNumber] at h
  split at h
  · simp at h
  · rename_i i r1 hi
    split at h
    · simp at h
    · rename_i f r2 hf
      split at h
      · simp at h
      · rename_i e r3 he
        simp only [Option.some.injEq, Prod.mk.injEq] at h
        have h1 := scanIntPart_length _ _ _ hi
        have h2 := scanFrac_length _ _ _ hf
        have h3 := scanExp_length _ _ _ he
        have h4 : (cs.drop (match cs with
            | c :: _ => if c = '-' then ['-'] else []
            | [] => []).length).length ≤ cs.length := by
          rw [List.length_drop]
          omega
        rw [← h.2]
        omega

theorem scanWord_length (word cs r : List Char) (hw : 0 < word.length) (hc : cs ≠ [])
    (h : scanWord word cs = some r) : r.length < cs.length := by
  simp only [scanWord] at h
  split at h
  · simp only [Option.some.injEq] at h
    have hpos : 0 < cs.length := List.length_pos.2 hc
    rw [← h, List.length_drop]
    omega
  · simp at h

theorem scan_length (f : Nat) : ∀ d : Nat,
    (∀ cs v r, scanValue f d cs = some (v, r) → r.length < cs.length) ∧
    (∀ cs ms r, scanMembers f d cs = some (ms, r) → r.length < cs.length) ∧
    (∀ cs es r, scanElements f d cs = some (es, r) → r.length < cs.length) := by
  induction f with
  | zero =>
    intro d
    refine ⟨fun cs v r h => ?_, fun cs ms r h => ?_, fun cs es r h => ?_⟩
    · simp [scanValue] at h
    · simp [scanMembers] at h
    · simp [scanElements] at h
  | succ f ih =>
    intro d
    refine ⟨fun cs v r h => ?_, fun cs ms r h => ?_, fun cs es r h => ?_⟩
    · cases cs with
      | nil => simp [scanValue] at h
      | cons c rest =>
        rw [scanValue] at h
        simp only [List.length_cons]
        split at h
        · split at h
          · simp at h
          · have hsk := skipSpace_length rest
            split at h
            · simp at h
            · rename_i c2 rest2 hsp
              rw [hsp] at hsk
              simp only [List.length_cons] at hsk
              split at h
              · simp only [Option.some.injEq, Prod.mk.injEq] at h
                rw [← h.2]
                omega
              · split at h
                · simp at h
                · rename_i ms r' hm
                  simp only [Option.some.injEq, Prod.mk.injEq] at h
                  have := (ih (d + 1)).2.1 _ _ _ hm
                  simp only [List.length_cons] at this
                  rw [← h.2]
                  omega
        · split at h
          · split at h
            · simp at h
            · have hsk := skipSpace_length rest
              split at h
              · simp at h
              · rename_i c2 rest2 hsp
                rw [hsp] at hsk
                simp only [List.length_cons] at hsk
                split at h
                · simp only [Option.some.injEq, Prod.mk.injEq] at h
                  rw [← h.2]
                  omega
                · split at h
                  · simp at h
                  · rename_i es r' hm
                    simp only [Option.some.injEq, Prod.mk.injEq] at h
                    have := (ih (d + 1)).2.2 _ _ _ hm
                    simp only [List.length_cons] at this
                    rw [← h.2]
                    omega
          · split at h
            · split at h
              · simp at h
              · rename_i us r' hstr
                simp only [Option.some.injEq, Prod.mk.injEq] at h
                have := scanString_length _ _ (Nat.le_refl _) _ _ hstr
                rw [← h.2]
                omega
            · split at h
              · split at h
                · simp at h
                · rename_i lit r' hnum
                  simp only [Option.some.injEq, Prod.mk.injEq] at h
                  have := scanNumber_length _ _ _ hnum
                  simp only [List.length_cons] at this
                  rw [← h.2]
                  omega
              · split at h
                · split at h
                  · simp at h
                  · rename_i r' hw
                    simp only [Option.some.injEq, Prod.mk.injEq] at h
                    have := scanWord_length _ _ _ (by simp) (by simp) hw
                    simp only [List.length_cons] at this
                    rw [← h.2]
                    omega
                · split at h
                  · split at h
                    · simp at h
                    · rename_i r' hw
                      simp only [Option.some.injEq, Prod.mk.injEq] at h
                      have := scanWord_length _ _ _ (by simp) (by simp) hw
                      simp only [List.length_cons] at this
                      rw [← h.2]
                      omega
                  · split at h
                    · split at h
                      · simp at h
                      · rename_i r' hw
                        simp only [Option.some.injEq, Prod.mk.injEq] at h
                        have := scanWord_length _ _ _ (by simp) (by simp) hw
                        simp only [List.length_cons] at this
                        rw [← h.2]
                        omega
                    · simp at h
    · cases cs with
      | nil => simp [scanMembers] at h
      | cons q rest =>
        rw [scanMembers] at h
        simp only [List.length_cons]
        split at h
        · split at h
          · simp at h
          · rename_i us r1 hstr
            have h1 := scanString_length _ _ (Nat.le_refl _) _ _ hstr
            have hs1 := skipSpace_length r1
            split at h
            · simp at h
            · rename_i colon r2 hsp
              rw [hsp] at hs1
              simp only [List.length_cons] at hs1
              split at h
              · have hs2 := skipSpace_length r2
                split at h
                · simp at h
                · rename_i v r3 hv
                  have h3 := (ih d).1 _ _ _ hv
                  have hs3 := skipSpace_length r3
                  split at h
                  · simp at h
                  · rename_i sep r4 hsp3
                    rw [hsp3] at hs3
                    simp only [List.length_cons] at hs3
                    split at h
                    · have hs4 := skipSpace_length r4
                      split at h
                      · simp at h
                      · rename_i ms' r' hm
                        have h5 := (ih d).2.1 _ _ _ hm
                        simp only [Option.some.injEq, Prod.mk.injEq] at h
                        rw [← h.2]
                        omega
                    · split at h
                      · simp only [Option.some.injEq, Prod.mk.injEq] at h
                        rw [← h.2]
                        omega
                      · simp at h
              · simp at h
        · simp at h
    · rw [scanElements] at h
      split at h
      · simp at h
      · rename_i v r1 hv
        have h1 := (ih d).1 _ _ _ hv
        have hs1 := skipSpace_length r1
        split at h
        · simp at h
        · rename_i sep r2 hsp
          rw [hsp] at hs1
          simp only [List.length_cons] at hs1
          split at h
          · have hs2 := skipSpace_length r2
            split at h
            · simp at h
            · rename_i es' r' he
              have h3 := (ih d).2.2 _ _ _ he
              simp only [Option.some.injEq, Prod.mk.injEq] at h
              rw [← h.2]
              omega
          · split at h
            · simp only [Option.some.injEq, Prod.mk.injEq] at h
              rw [← h.2]
              omega
            · simp at h

theorem scan_at_length (f : Nat) : ∀ d : Nat,
    (∀ cs v r, scanValue f d cs = some (v, r) →
      ∀ F, cs.length - r.length ≤ F → scanValue F d cs = some (v, r)) ∧
    (∀ cs ms r, scanMembers f d cs = some (ms, r) →
      ∀ F, cs.length - r.length ≤ F → scanMembers F d cs = some (ms, r)) ∧
    (∀ cs es r, scanElements f d cs = some (es, r) →
      ∀ F, cs.length - r.length ≤ F → scanElements F d cs = some (es, r)) := by
  induction f with
  | zero =>
    intro d
    refine ⟨fun cs v r h => ?_, fun cs ms r h => ?_, fun cs es r h => ?_⟩
    · simp [scanValue] at h
    · simp [scanMembers] at h
    · simp [scanElements] at h
  | succ f ih =>
    intro d
    refine ⟨fun cs v r h F hF => ?_, fun cs ms r h F hF => ?_, fun cs es r h F hF => ?_⟩
    · have hlen := (scan_length (f + 1) d).1 cs v r h
      obtain ⟨G, rfl⟩ : ∃ G, F = G + 1 := ⟨F - 1, by omega⟩
      cases cs with
      | nil => simp [scanValue] at h
      | cons c rest =>
        simp only [List.length_cons] at hlen hF
        have hsk := skipSpace_length rest
        rw [scanValue] at h ⊢
        by_cases h1 : c = '{'
        · rw [if_pos h1] at h ⊢
          by_cases h2 : d + 1 > maxNestingDepth
          · rw [if_pos h2] at h
            simp at h
          · rw [if_neg h2] at h ⊢
            cases hsp : skipSpace rest with
            | nil =>
              rw [hsp] at h
              simp at h
            | cons c2 rest2 =>
              rw [hsp] at h hsk
              simp only [List.length_cons] at hsk
              simp only at h ⊢
              by_cases h3 : c2 = '}'
              · rw [if_pos h3] at h ⊢
                exact h
              · rw [if_neg h3] at h ⊢
                cases hm : scanMembers f (d + 1) (c2 :: rest2) with
                | none =>
                  rw [hm] at h
                  simp at h
                | some p =>
                  obtain ⟨ms, r'⟩ := p
                  rw [hm] at h
                  simp only [Option.some.injEq, Prod.mk.injEq] at h
                  rw [(ih (d + 1)).2.1 _ _ _ hm G (by
                    simp only [List.length_cons]
                    rw [h.2]
                    omega)]
                  simp [h]
        · rw [if_neg h1] at h ⊢
          by_cases h1b : c = '['
          · rw [if_pos h1b] at h ⊢
            by_cases h2 : d + 1 > maxNestingDepth
            · rw [if_pos h2] at h
              simp at h
            · rw [if_neg h2] at h ⊢
              cases hsp : skipSpace rest with
              | nil =>
                rw [hsp] at h
                simp at h
              | cons c2 rest2 =>
                rw [hsp] at h hsk
                simp only [List.length_cons] at hsk
                simp only at h ⊢
                by_cases h3 : c2 = ']'
                · rw [if_pos h3] at h ⊢
                  exact h
                · rw [if_neg h3] at h ⊢
                  cases hm : scanElements f (d + 1) (c2 :: rest2) with
                  | none =>
                    rw [hm] at h
                    simp at h
                  | some p =>
                    obtain ⟨es, r'⟩ := p
                    rw [hm] at h
                    simp only [Option.some.injEq, Prod.mk.injEq] at h
                    rw [(ih (d + 1)).2.2 _ _ _ hm G (by
                      simp only [List.length_cons]
                      rw [h.2]
                      omega)]
                    simp [h]
          · rw [if_neg h1b] at h ⊢
            exact h
    · have hlen := (scan_length (f + 1) d).2.1 cs ms r h
      obtain ⟨G, rfl⟩ : ∃ G, F = G + 1 := ⟨F - 1, by omega⟩
      cases cs with
      | nil => simp [scanMembers] at h
      | cons q rest =>
        simp only [List.length_cons] at hlen hF
        rw [scanMembers] at h ⊢
        by_cases h1 : q = '"'
        · rw [if_pos h1] at h ⊢
          cases hstr : scanString rest with
          | none =>
            rw [hstr] at h
            simp at h
          | some p1 =>
            obtain ⟨us, r1⟩ := p1
            have hl1 := scanString_length _ _ (Nat.le_refl _) _ _ hstr
            have hs1 := skipSpace_length r1
            rw [hstr] at h
            simp only at h ⊢
            cases hsp : skipSpace r1 with
            | nil =>
              rw [hsp] at h
              simp at h
            | cons colon r2 =>
              rw [hsp] at h hs1
              simp only [List.length_cons] at hs1
              simp only at h ⊢
              by_cases h2 : colon = ':'
              · rw [if_pos h2] at h ⊢
                have hs2 := skipSpace_length r2
                cases hv : scanValue f d (skipSpace r2) with
                | none =>
                  rw [hv] at h
                  simp at h
                | some p3 =>
                  obtain ⟨v, r3⟩ := p3
                  have hl3 := (scan_length f d).1 _ _ _ hv
                  have hs3 := skipSpace_length r3
                  rw [hv] at h
                  simp only at h
                  cases hsp3 : skipSpace r3 with
                  | nil =>
                    rw [hsp3] at h
                    simp at h
                  | cons sep r4 =>
                    rw [hsp3] at h hs3
                    simp only [List.length_cons] at hs3
                    simp only at h
                    have hs4 := skipSpace_length r4
                    by_cases h4 : sep = ','
                    · rw [if_pos h4] at h
                      cases hm : scanMembers f d (skipSpace r4) with
                      | none =>
                        rw [hm] at h
                        simp at h
                      | some p5 =>
                        obtain ⟨ms', r'⟩ := p5
                        have hl5 := (scan_length f d).2.1 _ _ _ hm
                        rw [hm] at h
                        simp only [Option.some.injEq, Prod.mk.injEq] at h
                        rw [(ih d).1 _ _ _ hv G (by rw [← h.2] at hF; omega)]
                        simp only
                        rw [hsp3]
                        simp only
                        rw [if_pos h4, (ih d).2.1 _ _ _ hm G (by rw [← h.2] at hF; omega)]
                        simp [h]
                    · rw [if_neg h4] at h
                      by_cases h5 : sep = '}'
                      · rw [if_pos h5] at h
                        simp only [Option.some.injEq, Prod.mk.injEq] at h
                        rw [(ih d).1 _ _ _ hv G (by rw [← h.2] at hF; omega)]
                        simp only
                        rw [hsp3]
                        simp only
                        rw [if_neg h4, if_pos h5]
                        simp [h]
                      · rw [if_neg h5] at h
                        simp at h
              · rw [if_neg h2] at h
                simp at h
        · rw [if_neg h1] at h
          simp at h
    · have hlen := (scan_length (f + 1) d).2.2 cs es r h
      obtain ⟨G, rfl⟩ : ∃ G, F = G + 1 := ⟨F - 1, by omega⟩
      rw [scanElements] at h ⊢
      cases hv : scanValue f d cs with
      | none =>
        rw [hv] at h
        simp at h
      | some p1 =>
        obtain ⟨v, r1⟩ := p1
        have hl1 := (scan_length f d).1 _ _ _ hv
        have hs1 := skipSpace_length r1
        rw [hv] at h
        simp only at h
        cases hsp : skipSpace r1 with
        | nil =>
          rw [hsp] at h
          simp at h
        | cons sep r2 =>
          rw [hsp] at h hs1
          simp only [List.length_cons] at hs1
          simp only at h
          have hs2 := skipSpace_length r2
          by_cases h4 : sep = ','
          · rw [if_pos h4] at h
            cases hm : scanElements f d (skipSpace r2) with
            | none =>
              rw [hm] at h
              simp at h
            | some p5 =>
              obtain ⟨es', r'⟩ := p5
              have hl5 := (scan_length f d).2.2 _ _ _ hm
              rw [hm] at h
              simp only [Option.some.injEq, Prod.mk.injEq] at h
              rw [(ih d).1 _ _ _ hv G (by rw [← h.2] at hF; omega)]
              simp only
              rw [hsp]
              simp only
              rw [if_pos h4, (ih d).2.2 _ _ _ hm G (by rw [← h.2] at hF; omega)]
              simp [h]
          · rw [if_neg h4] at h
            by_cases h5 : sep = ']'
            · rw [if_pos h5] at h
              simp only [Option.some.injEq, Prod.mk.injEq] at h
              rw [(ih d).1 _ _ _ hv G (by rw [← h.2] at hF; omega)]
              simp only
              rw [hsp]
              simp only
              rw [if_neg h4, if_pos h5]
              simp [h]
            · rw [if_neg h5] at h
              simp at h

/-- The fuel `readValue` gives the scanner is enough: with any larger bound the
scanner returns the same result on the body. -/
theorem readValue_fuel_enough (body : List Char) (k : Nat) :
    scanValue (body.length + 1 + k) 0 (skipSpace body) = readValue body := by
  have hsk := skipSpace_length body
  unfold readValue
  cases h1 : scanValue (body.length + 1 + k) 0 (skipSpace body) with
  | some p =>
    obtain ⟨v, r⟩ := p
    exact ((scan_at_length _ 0).1 _ _ _ h1 (body.length + 1) (by omega)).symm
  | none =>
    cases h2 : scanValue (body.length + 1) 0 (skipSpace body) with
    | none => rfl
    | some p =>
      obtain ⟨v, r⟩ := p
      have := (scan_at_length _ 0).1 _ _ _ h2 (body.length + 1 + k) (by omega)
      rw [h1] at this
      simp at this


end rubrik
